import Mathlib

/-!
# The saved-password vault of `save_pass.c`

A shallow embedding of `src/save_pass.c` (OpenVPN GUI): the functions that seal a
credential with the data-protection primitive and a per-configuration entropy
string, keep it in the registry, and recall, probe or delete it.

* Memory is a list of bytes; a `WCHAR` buffer is its little-endian byte image.
* The registry is a function from configuration and value name to the stored
  bytes; every function threads a `World` (registry and a log of the calls made
  to the collaborators) explicitly.
* The collaborators that live outside `save_pass.c` (the protection primitive,
  the random source, registry write failures, the contents of uninitialised
  stack buffers) are the fields of `Collab`.
* A recall writes into the caller's buffer; the result is `none` when a store
  falls outside that buffer (undefined behaviour in C).
* Lengths are natural numbers, reduced modulo 2^32 where the C code narrows a
  `size_t` to a `DWORD`; a length returned as `int` is given by its `DWORD` value.
-/

namespace SavePass

abbrev Byte := Nat
abbrev WChar := Nat
abbrev ConfigName := String

/-! ## Constants of `save_pass.c` -/

def KEY_PASS_DATA : String := "key-data"
def AUTH_PASS_DATA : String := "auth-data"
def TOTP_PASS_DATA : String := "totp-data"
def ENTROPY_DATA : String := "entropy"
def AUTH_USER_DATA : String := "username"
def ENTROPY_LEN : Nat := 16

/-- The size of a `WCHAR` in bytes (`sizeof(WCHAR)` on Windows). -/
def sizeof_WCHAR : Nat := 2

/-- The modulus of `DWORD` arithmetic. -/
def DWORD_MOD : Nat := 2 ^ 32

/-- The modulus of `size_t` arithmetic (a 64-bit build). -/
def SIZE_MOD : Nat := 2 ^ 64

/-- The size of the stack buffer `BYTE in[2048]` of `recall_encrypted_data`. -/
def IN_SIZE : Nat := 2048

/-! ## Memory -/

/-- The C `strlen`: the number of bytes before the first nul. -/
def strlen (s : List Byte) : Nat := (s.takeWhile (fun b => b != 0)).length

/-- The C string held in a `char` buffer: the bytes before the first nul. -/
def cstr (s : List Byte) : List Byte := s.takeWhile (fun b => b != 0)

/-- The C `wcslen`: the number of wide characters before the first nul. -/
def wcslen (s : List WChar) : Nat := (s.takeWhile (fun c => c != 0)).length

/-- The wide string held in a `WCHAR` buffer: the characters before the first nul. -/
def wstr (s : List WChar) : List WChar := s.takeWhile (fun c => c != 0)

/-- The byte image of a `WCHAR` array (little endian, two bytes each). -/
def wbytes : List WChar → List Byte
  | [] => []
  | c :: cs => (c % 256) :: (c / 256 % 256) :: wbytes cs

/-- The C `memset(buf, c, n)`; `none` when `n` bytes do not fit in `buf`. -/
def memset (buf : List Byte) (c : Byte) (n : Nat) : Option (List Byte) :=
  if n ≤ buf.length then some (List.replicate n c ++ buf.drop n) else none

/-- The C `memcpy(dst, src, n)`; `none` when either region is shorter than `n`. -/
def memcpy (dst src : List Byte) (n : Nat) : Option (List Byte) :=
  if n ≤ dst.length ∧ n ≤ src.length then some (src.take n ++ dst.drop n) else none

/-- The C store `buf[i] = v` on a `char` buffer; `none` when out of bounds. -/
def storeByte (buf : List Byte) (i : Nat) (v : Byte) : Option (List Byte) :=
  if i < buf.length then some (buf.set i v) else none

/-- The C store `buf[i] = v` on a `WCHAR` buffer, which touches the bytes `2*i` and
`2*i+1`; `none` when out of bounds. -/
def storeWChar (buf : List Byte) (i : Nat) (v : WChar) : Option (List Byte) :=
  if 2 * i + 1 < buf.length then
    some ((buf.set (2 * i) (v % 256)).set (2 * i + 1) (v / 256 % 256))
  else none

/-- A library call filling the start of `dst` with `src` (never beyond `dst`). -/
def fill (dst src : List Byte) : List Byte :=
  src.take dst.length ++ dst.drop src.length

/-! ## Collaborators and state -/

/-- One call to a collaborator of `save_pass.c`. -/
inductive Call where
  | protect (data entropy : List Byte)
  | unprotect (data entropy : List Byte)
  | random (sz : Nat)
  | regQuery (config_name : ConfigName) (name : String)
  | regSet (config_name : ConfigName) (name : String) (data : List Byte)
  | regDelete (config_name : ConfigName) (name : String)
  deriving DecidableEq

/-- What `save_pass.c` takes from outside: the protection primitive
(`CryptProtectData`, `CryptUnprotectData`: data and entropy to the result, `none`
on failure), the random source behind `GetRandomPassword` (`none` on failure),
whether a registry write of given data succeeds, and the bytes found in an
uninitialised stack buffer. -/
structure Collab where
  CryptProtectData : List Byte → List Byte → Option (List Byte)
  CryptUnprotectData : List Byte → List Byte → Option (List Byte)
  random : Nat → Option (List Byte)
  regWritable : ConfigName → String → List Byte → Bool
  stack : Nat → Byte

/-- The registry (values by configuration and value name) and the log of the
collaborator calls made so far. -/
structure World where
  reg : ConfigName → String → Option (List Byte)
  log : List Call

/-- An uninitialised stack buffer of `n` bytes. -/
def stackBuf (env : Collab) (n : Nat) : List Byte := (List.range n).map env.stack

/-- The world with one more call logged. -/
def World.note (w : World) (c : Call) : World := ⟨w.reg, w.log ++ [c]⟩

/-- Modelled from the spec: `GetConfigRegistryValue` of `registry.c` with a buffer,
the store's `get(config, key, buffer, capacity) -> length_or_zero`. A stored value
that fits in `len` bytes is written to the start of `data` and its length is
returned; an absent value gives 0 and leaves `data` alone. The spec is silent on a
value longer than `len`: here, as for the Windows registry (`RegQueryValueEx`
reports `ERROR_MORE_DATA`), such a read is a failed one and gives 0. -/
def GetConfigRegistryValue (w : World) (config_name : ConfigName) (name : String)
    (data : List Byte) (len : Nat) : (List Byte × Nat) × World :=
  let w1 := w.note (Call.regQuery config_name name)
  match w.reg config_name name with
  | none => ((data, 0), w1)
  | some v => if v.length ≤ len then ((fill data v, v.length), w1) else ((data, 0), w1)

/-- Modelled from the spec: `GetConfigRegistryValue(config_name, name, NULL, 0)`,
the store's pure existence and length probe (null buffer, zero capacity): the
length of the stored value, 0 when absent. -/
def GetConfigRegistryValue_NULL (w : World) (config_name : ConfigName) (name : String) :
    Nat × World :=
  let w1 := w.note (Call.regQuery config_name name)
  match w.reg config_name name with
  | none => (0, w1)
  | some v => (v.length, w1)

/-- Modelled from the spec: `SetConfigRegistryValueBinary` of `registry.c`, the
store's `put(config, key, bytes)`: the first `len` bytes of `data` become the
value; on a store failure nothing changes and the result is `false`. -/
def SetConfigRegistryValueBinary (env : Collab) (w : World) (config_name : ConfigName)
    (name : String) (data : List Byte) (len : Nat) : Bool × World :=
  let v := data.take len
  let w1 := w.note (Call.regSet config_name name v)
  if env.regWritable config_name name v then
    (true, ⟨fun c n => if c = config_name ∧ n = name then some v else w1.reg c n, w1.log⟩)
  else (false, w1)

/-- Modelled from the spec: `DeleteConfigRegistryValue` of `registry.c`, the store's
`delete(config, key)`. -/
def DeleteConfigRegistryValue (w : World) (config_name : ConfigName) (name : String) :
    World :=
  let w1 := w.note (Call.regDelete config_name name)
  ⟨fun c n => if c = config_name ∧ n = name then none else w1.reg c n, w1.log⟩

/-- Modelled from the spec: `GetRandomPassword(buf, len)`, the random byte source
`fill(buffer, size) -> success`: on success the first `len` bytes of `buf` are
random; on failure `buf` is left alone. -/
def GetRandomPassword (env : Collab) (w : World) (buf : List Byte) (len : Nat) :
    (List Byte × Bool) × World :=
  let w1 := w.note (Call.random len)
  match env.random len with
  | some r => ((fill buf (r.take len), true), w1)
  | none => ((buf, false), w1)

/-! ## The functions of `save_pass.c` -/

/-- The function `crypt_protect`: seal the first `szdata` bytes of `data` with the C
string in `entropy`; the blob and its length, or length 0 on failure. -/
def crypt_protect (env : Collab) (w : World) (data : List Byte) (szdata : Nat)
    (entropy : List Byte) : (List Byte × Nat) × World :=
  let data_in := data.take szdata
  let e := entropy.take (strlen entropy)
  let w1 := w.note (Call.protect data_in e)
  match env.CryptProtectData data_in e with
  | some data_out => ((data_out, data_out.length), w1)
  | none => (([], 0), w1)

/-- The function `crypt_unprotect`: unseal the first `szdata` bytes of `data` with the
C string in `entropy`; the plaintext and its length, or length 0 on failure. -/
def crypt_unprotect (env : Collab) (w : World) (data : List Byte) (szdata : Nat)
    (entropy : List Byte) : (List Byte × Nat) × World :=
  let data_in := data.take szdata
  let e := entropy.take (strlen entropy)
  let w1 := w.note (Call.unprotect data_in e)
  match env.CryptUnprotectData data_in e with
  | some data_out => ((data_out, data_out.length), w1)
  | none => (([], 0), w1)

/-- The function `get_entropy`: load the entropy string of the configuration into
the buffer `e` of `sz` bytes; when there is none and `generate` holds, make a new
one and save it; otherwise the empty string. -/
def get_entropy (env : Collab) (w : World) (config_name : ConfigName) (e : List Byte)
    (sz : Nat) (generate : Bool) : List Byte × World :=
  let ((e1, len), w1) := GetConfigRegistryValue w config_name ENTROPY_DATA e sz
  if len > 0 then
    (e1.set (len - 1) 0, w1)
  else if generate then
    let ((e2, ok), w2) := GetRandomPassword env w1 e1 sz
    if ok then
      let e3 := e2.set (sz - 1) 0
      let (saved, w3) := SetConfigRegistryValueBinary env w2 config_name ENTROPY_DATA e3 sz
      if saved then (e3, w3) else (e3.set 0 0, w3)
    else (e2.set 0 0, w2)
  else (e1.set 0 0, w1)

/-- The function `save_encrypted_data`: seal `len` bytes of `password` and store the
blob under `name`. -/
def save_encrypted_data (env : Collab) (w : World) (config_name : ConfigName)
    (name : String) (password : List Byte) (len : Nat) : Nat × World :=
  let (entropy, w1) :=
    get_entropy env w config_name (stackBuf env (ENTROPY_LEN + 1)) (ENTROPY_LEN + 1) true
  let ((out, len1), w2) := crypt_protect env w1 password len entropy
  if len1 > 0 then
    let (_, w3) := SetConfigRegistryValueBinary env w2 config_name name out len1
    (1, w3)
  else (0, w2)

/-- The function `save_encrypted`: the wide string with its terminator, sealed and
stored under `name`. -/
def save_encrypted (env : Collab) (w : World) (config_name : ConfigName)
    (password : List WChar) (name : String) : Nat × World :=
  save_encrypted_data env w config_name name (wbytes password)
    ((wcslen password + 1) * sizeof_WCHAR % DWORD_MOD)

def SaveKeyPass (env : Collab) (w : World) (config_name : ConfigName)
    (password : List WChar) : Nat × World :=
  save_encrypted env w config_name password KEY_PASS_DATA

def SaveAuthPass (env : Collab) (w : World) (config_name : ConfigName)
    (password : List WChar) : Nat × World :=
  save_encrypted env w config_name password AUTH_PASS_DATA

def SaveTotpPass (env : Collab) (w : World) (config_name : ConfigName)
    (password : List Byte) : Nat × World :=
  save_encrypted_data env w config_name TOTP_PASS_DATA password (strlen password % DWORD_MOD)

/-- The function `recall_encrypted_data`: read the blob stored under `name` (at most
2048 bytes) and unseal it; the plaintext and its length, 0 on failure. -/
def recall_encrypted_data (env : Collab) (w : World) (config_name : ConfigName)
    (name : String) : (List Byte × Nat) × World :=
  let ((inb, len), w1) := GetConfigRegistryValue w config_name name (stackBuf env IN_SIZE) IN_SIZE
  if len = 0 then (([], 0), w1)
  else
    let (entropy, w2) :=
      get_entropy env w1 config_name (stackBuf env (ENTROPY_LEN + 1)) (ENTROPY_LEN + 1) false
    crypt_unprotect env w2 inb len entropy

/-- The function `recall_encrypted`: recall a wide-text secret into `password`, a
buffer of `capacity` bytes. The result is the buffer and the returned length. -/
def recall_encrypted (env : Collab) (w : World) (config_name : ConfigName)
    (password : List Byte) (capacity : Nat) (name : String) :
    Option ((List Byte × Nat) × World) := do
  let password1 ← memset password 0 capacity
  let ((out, len), w1) := recall_encrypted_data env w config_name name
  if len = 0 then
    return ((password1, 0), w1)
  if len ≤ capacity then
    let password2 ← memcpy password1 out len
    let password3 ← storeWChar password2 ((capacity / sizeof_WCHAR + SIZE_MOD - 1) % SIZE_MOD) 0
    return ((password3, len), w1)
  else
    return ((password1, 0), w1)

/-- The function `recall_encrypted_1`: recall a byte-string secret into `password`, a
buffer of `capacity` bytes. -/
def recall_encrypted_1 (env : Collab) (w : World) (config_name : ConfigName)
    (password : List Byte) (capacity : Nat) (name : String) :
    Option ((List Byte × Nat) × World) := do
  let password1 ← memset password 0 capacity
  let ((out, len), w1) := recall_encrypted_data env w config_name name
  if len = 0 then
    return ((password1, 0), w1)
  if len ≤ capacity then
    let password2 ← memcpy password1 out len
    let password3 ← storeByte password2 ((capacity + DWORD_MOD - 1) % DWORD_MOD) 0
    return ((password3, len), w1)
  else
    return ((password1, 0), w1)

def RecallKeyPass (env : Collab) (w : World) (config_name : ConfigName)
    (password : List Byte) (size : Nat) : Option ((List Byte × Nat) × World) :=
  recall_encrypted env w config_name password size KEY_PASS_DATA

def RecallAuthPass (env : Collab) (w : World) (config_name : ConfigName)
    (password : List Byte) (size : Nat) : Option ((List Byte × Nat) × World) :=
  recall_encrypted env w config_name password size AUTH_PASS_DATA

def RecallTotpPass (env : Collab) (w : World) (config_name : ConfigName)
    (password : List Byte) (size : Nat) : Option ((List Byte × Nat) × World) :=
  recall_encrypted_1 env w config_name password size TOTP_PASS_DATA

/-- The function `SaveUsername`: the wide string with its terminator, stored as it is. -/
def SaveUsername (env : Collab) (w : World) (config_name : ConfigName)
    (username : List WChar) : Nat × World :=
  let len := (wcslen username + 1) * sizeof_WCHAR % DWORD_MOD
  let (_, w1) := SetConfigRegistryValueBinary env w config_name AUTH_USER_DATA (wbytes username) len
  (1, w1)

/-- The function `RecallUsername`: `capacity` bytes of `username` are offered to the
registry read; the terminator goes to the wide index `capacity - 1`. -/
def RecallUsername (w : World) (config_name : ConfigName) (username : List Byte)
    (capacity : Nat) : Option ((List Byte × Nat) × World) := do
  let ((username1, len), w1) :=
    GetConfigRegistryValue w config_name AUTH_USER_DATA username capacity
  if len = 0 then
    return ((username1, 0), w1)
  let username2 ← storeWChar username1 ((capacity + DWORD_MOD - 1) % DWORD_MOD) 0
  return ((username2, len), w1)

def DeleteSavedPasswords (w : World) (config_name : ConfigName) : World :=
  let w1 := DeleteConfigRegistryValue w config_name KEY_PASS_DATA
  let w2 := DeleteConfigRegistryValue w1 config_name AUTH_PASS_DATA
  let w3 := DeleteConfigRegistryValue w2 config_name TOTP_PASS_DATA
  DeleteConfigRegistryValue w3 config_name ENTROPY_DATA

def IsAuthPassSaved (w : World) (config_name : ConfigName) : Bool × World :=
  let (len, w1) := GetConfigRegistryValue_NULL w config_name AUTH_PASS_DATA
  (decide (len > 0), w1)

def IsTotpPassSaved (w : World) (config_name : ConfigName) : Bool × World :=
  let (len, w1) := GetConfigRegistryValue_NULL w config_name TOTP_PASS_DATA
  (decide (len > 0), w1)

def IsKeyPassSaved (w : World) (config_name : ConfigName) : Bool × World :=
  let (len, w1) := GetConfigRegistryValue_NULL w config_name KEY_PASS_DATA
  (decide (len > 0), w1)

/-! ## Concrete collaborators for the examples -/

/-- A toy protection primitive: the blob is a tag byte, the entropy length, the
entropy and the data. -/
def toySeal (data entropy : List Byte) : Option (List Byte) :=
  some (77 :: entropy.length :: (entropy ++ data))

/-- The inverse of `toySeal`; it fails on a wrong tag or a different entropy. -/
def toyUnseal (blob entropy : List Byte) : Option (List Byte) :=
  match blob with
  | 77 :: n :: rest =>
    if n = entropy.length ∧ rest.take n = entropy then some (rest.drop n) else none
  | _ => none

/-- Collaborators that all work: the toy primitive, a constant random source, a
registry that accepts every write. -/
def toyEnv : Collab :=
  ⟨toySeal, toyUnseal, fun n => some (List.replicate n 65), fun _ _ _ => true, fun _ => 170⟩

/-- The toy collaborators with a registry that refuses every write. -/
def readOnlyEnv : Collab :=
  ⟨toySeal, toyUnseal, fun n => some (List.replicate n 65), fun _ _ _ => false, fun _ => 170⟩

/-- Collaborators whose protection primitive always fails. -/
def failEnv : Collab :=
  ⟨fun _ _ => none, fun _ _ => none, fun n => some (List.replicate n 65), fun _ _ _ => true,
    fun _ => 170⟩

/-- The empty registry with an empty log. -/
def emptyWorld : World := ⟨fun _ _ => none, []⟩

/-! ## Definitions used to state the theorems -/

/-- The entropy string that a read of the registry yields with a buffer of `sz`
bytes: the C string of the stored value with its last byte forced to nul, empty
when the value is absent, empty or longer than the buffer. -/
def loadedEntropy (reg : ConfigName → String → Option (List Byte)) (c : ConfigName)
    (sz : Nat) : List Byte :=
  match reg c ENTROPY_DATA with
  | some v => if 0 < v.length ∧ v.length ≤ sz then cstr (v.set (v.length - 1) 0) else []
  | none => []

/-- The buffer that holds a newly generated entropy string. -/
def freshEntropy (e r : List Byte) (sz : Nat) : List Byte :=
  (fill e (r.take sz)).set (sz - 1) 0

/-- What `recall_encrypted_data` yields from a registry: the plaintext and its
length when a blob of 1 to 2048 bytes is stored and unseals with the stored entropy
string, and length 0 otherwise. -/
def recalled (env : Collab) (reg : ConfigName → String → Option (List Byte))
    (c : ConfigName) (name : String) : List Byte × Nat :=
  match reg c name with
  | some blob =>
    if 0 < blob.length ∧ blob.length ≤ IN_SIZE then
      match env.CryptUnprotectData blob (loadedEntropy reg c (ENTROPY_LEN + 1)) with
      | some p => (p, p.length)
      | none => ([], 0)
    else ([], 0)
  | none => ([], 0)

/-- The entropy buffer and the world after the `get_entropy` call of a save. -/
def saveEntropy (env : Collab) (w : World) (c : ConfigName) : List Byte × World :=
  get_entropy env w c (stackBuf env (ENTROPY_LEN + 1)) (ENTROPY_LEN + 1) true

/-- The buffer after a recall that copies `plain` into a zeroed buffer of `cap`
bytes, before the forced terminator. -/
def copied (buf plain : List Byte) (cap : Nat) : List Byte :=
  plain ++ List.replicate (cap - plain.length) 0 ++ buf.drop cap

/-- A registry that holds, for the configuration `vpn`, the toy blob of the six
bytes of the wide text `ab` under each of the three sealed names, and no entropy. -/
def overflowWorld : World :=
  ⟨fun c n =>
    if c = "vpn" ∧ (n = KEY_PASS_DATA ∨ n = AUTH_PASS_DATA ∨ n = TOTP_PASS_DATA) then
      some [77, 0, 97, 0, 98, 0, 0, 0]
    else none, []⟩

/-- The entropy buffer a save generates from the random bytes `r`. -/
def newEntropy (env : Collab) (r : List Byte) : List Byte :=
  freshEntropy (stackBuf env (ENTROPY_LEN + 1)) r (ENTROPY_LEN + 1)

/-! ## Memory lemmas -/

theorem fill_length (dst src : List Byte) : (fill dst src).length = dst.length := by
  simp only [fill, List.length_append, List.length_take, List.length_drop]
  omega

theorem fill_of_le (dst src : List Byte) (h : src.length ≤ dst.length) :
    fill dst src = src ++ dst.drop src.length := by
  simp [fill, List.take_of_length_le h]

theorem fill_take (dst src : List Byte) (h : src.length ≤ dst.length) :
    (fill dst src).take src.length = src := by
  rw [fill_of_le dst src h]
  simp

theorem fill_same_length (dst src : List Byte) (h : src.length = dst.length) :
    fill dst src = src := by
  rw [fill_of_le dst src (le_of_eq h), h]
  simp

theorem stackBuf_length (env : Collab) (n : Nat) : (stackBuf env n).length = n := by
  simp [stackBuf]

theorem take_strlen (s : List Byte) : s.take (strlen s) = cstr s := by
  unfold strlen cstr
  induction s with
  | nil => rfl
  | cons a t ih =>
    by_cases h : a = 0
    · simp [List.takeWhile_cons, h]
    · simp [List.takeWhile_cons, h, ih]

theorem cstr_set_zero (s : List Byte) : cstr (s.set 0 0) = [] := by
  cases s <;> simp [cstr, List.takeWhile_cons]

theorem cstr_append_of_mem (a t : List Byte) (h : 0 ∈ a) : cstr (a ++ t) = cstr a := by
  unfold cstr
  induction a with
  | nil => simp at h
  | cons x xs ih =>
    by_cases hx : x = 0
    · simp [List.takeWhile_cons, hx]
    · have hm : 0 ∈ xs := by
        rcases List.mem_cons.mp h with h0 | h0
        · exact absurd h0.symm hx
        · exact h0
      simp [List.takeWhile_cons, hx, ih hm]

theorem zero_mem_set_last (v : List Byte) (h : 0 < v.length) :
    0 ∈ v.set (v.length - 1) 0 := by
  apply List.mem_iff_getElem.mpr
  refine ⟨v.length - 1, by simp; omega, ?_⟩
  simp

theorem set_noop (l : List Byte) (i : Nat) (a : Byte) (h : l[i]? = some a) :
    l.set i a = l := by
  induction l generalizing i with
  | nil => rfl
  | cons x xs ih =>
    cases i with
    | zero => simp at h; simp [h]
    | succ j => simp at h; simp [ih j h]

/-! ## The registry after each collaborator call -/

@[simp]
theorem note_reg (w : World) (c : Call) : (w.note c).reg = w.reg := rfl

@[simp]
theorem note_log (w : World) (c : Call) : (w.note c).log = w.log ++ [c] := rfl

@[simp]
theorem GetConfigRegistryValue_reg (w : World) (c : ConfigName) (n : String)
    (data : List Byte) (len : Nat) : (GetConfigRegistryValue w c n data len).2.reg = w.reg := by
  unfold GetConfigRegistryValue
  cases w.reg c n with
  | none => rfl
  | some v => by_cases h : v.length ≤ len <;> simp [h]

@[simp]
theorem GetConfigRegistryValue_NULL_reg (w : World) (c : ConfigName) (n : String) :
    (GetConfigRegistryValue_NULL w c n).2.reg = w.reg := by
  unfold GetConfigRegistryValue_NULL
  cases w.reg c n <;> rfl

@[simp]
theorem GetRandomPassword_reg (env : Collab) (w : World) (buf : List Byte) (len : Nat) :
    (GetRandomPassword env w buf len).2.reg = w.reg := by
  unfold GetRandomPassword
  cases env.random len <;> rfl

@[simp]
theorem crypt_protect_reg (env : Collab) (w : World) (data : List Byte) (sz : Nat)
    (e : List Byte) : (crypt_protect env w data sz e).2.reg = w.reg := by
  simp only [crypt_protect]
  split <;> rfl

@[simp]
theorem crypt_unprotect_reg (env : Collab) (w : World) (data : List Byte) (sz : Nat)
    (e : List Byte) : (crypt_unprotect env w data sz e).2.reg = w.reg := by
  simp only [crypt_unprotect]
  split <;> rfl

theorem SetConfigRegistryValueBinary_reg (env : Collab) (w : World) (c : ConfigName)
    (n : String) (data : List Byte) (len : Nat) (c2 : ConfigName) (n2 : String) :
    (SetConfigRegistryValueBinary env w c n data len).2.reg c2 n2 =
      if env.regWritable c n (data.take len) = true ∧ c2 = c ∧ n2 = n then some (data.take len)
      else w.reg c2 n2 := by
  unfold SetConfigRegistryValueBinary
  by_cases hw : env.regWritable c n (data.take len) = true
  · simp [hw]
  · simp [hw]

theorem DeleteConfigRegistryValue_reg (w : World) (c : ConfigName) (n : String)
    (c2 : ConfigName) (n2 : String) :
    (DeleteConfigRegistryValue w c n).reg c2 n2 =
      if c2 = c ∧ n2 = n then none else w.reg c2 n2 := rfl

/-! ## The entropy manager -/

theorem GetConfigRegistryValue_hit (w : World) (c : ConfigName) (n : String)
    (data : List Byte) (len : Nat) (v : List Byte) (hv : w.reg c n = some v)
    (hlen : v.length ≤ len) :
    GetConfigRegistryValue w c n data len
      = ((fill data v, v.length), w.note (Call.regQuery c n)) := by
  simp [GetConfigRegistryValue, hv, hlen]

theorem GetConfigRegistryValue_miss (w : World) (c : ConfigName) (n : String)
    (data : List Byte) (len : Nat) (h : ∀ v, w.reg c n = some v → len < v.length) :
    GetConfigRegistryValue w c n data len = ((data, 0), w.note (Call.regQuery c n)) := by
  unfold GetConfigRegistryValue
  cases hv : w.reg c n with
  | none => rfl
  | some v =>
    have := h v hv
    simp [Nat.not_le.mpr this]

theorem fill_nil (data : List Byte) : fill data [] = data := by
  simp [fill]

/-- The read of `get_entropy` either loads a stored value of 1 to `sz` bytes or
returns length 0 with the buffer as it was. -/
theorem GetConfigRegistryValue_entropy (w : World) (c : ConfigName) (e : List Byte) (sz : Nat) :
    (∃ v, w.reg c ENTROPY_DATA = some v ∧ 0 < v.length ∧ v.length ≤ sz ∧
        GetConfigRegistryValue w c ENTROPY_DATA e sz
          = ((fill e v, v.length), w.note (Call.regQuery c ENTROPY_DATA))) ∨
    (loadedEntropy w.reg c sz = [] ∧
        (∀ v, w.reg c ENTROPY_DATA = some v → v.length = 0 ∨ sz < v.length) ∧
        GetConfigRegistryValue w c ENTROPY_DATA e sz
          = ((e, 0), w.note (Call.regQuery c ENTROPY_DATA))) := by
  cases hv : w.reg c ENTROPY_DATA with
  | none =>
    right
    refine ⟨by simp [loadedEntropy, hv], by simp, ?_⟩
    exact GetConfigRegistryValue_miss w c _ e sz (by simp [hv])
  | some v =>
    by_cases h1 : v.length ≤ sz
    · by_cases h0 : 0 < v.length
      · left
        exact ⟨v, rfl, h0, h1, GetConfigRegistryValue_hit w c _ e sz v hv h1⟩
      · right
        have hnil : v = [] := List.length_eq_zero.mp (by omega)
        refine ⟨by simp [loadedEntropy, hv, hnil], ?_, ?_⟩
        · intro v2 h2
          simp only [Option.some.injEq] at h2
          subst h2
          left; omega
        · rw [GetConfigRegistryValue_hit w c _ e sz v hv h1, hnil, fill_nil]
          rfl
    · right
      refine ⟨by simp [loadedEntropy, hv, h1], ?_, ?_⟩
      · intro v2 h2
        simp only [Option.some.injEq] at h2
        subst h2
        right; omega
      · apply GetConfigRegistryValue_miss
        intro v2 h2
        rw [hv] at h2
        simp only [Option.some.injEq] at h2
        subst h2
        omega

/-- A stored entropy value of 1 to `sz` bytes is loaded, whatever `generate` is, and
the registry is not written. -/
theorem get_entropy_load (env : Collab) (w : World) (c : ConfigName) (e : List Byte)
    (sz : Nat) (g : Bool) (v : List Byte) (hv : w.reg c ENTROPY_DATA = some v)
    (h0 : 0 < v.length) (h1 : v.length ≤ sz) :
    get_entropy env w c e sz g
      = ((fill e v).set (v.length - 1) 0, w.note (Call.regQuery c ENTROPY_DATA)) := by
  simp [get_entropy, GetConfigRegistryValue_hit w c _ e sz v hv h1, h0]

/-- Without `generate`, a failed load gives the empty string and no write. -/
theorem get_entropy_miss_false (env : Collab) (w : World) (c : ConfigName) (e : List Byte)
    (sz : Nat)
    (h : GetConfigRegistryValue w c ENTROPY_DATA e sz
          = ((e, 0), w.note (Call.regQuery c ENTROPY_DATA))) :
    get_entropy env w c e sz false = (e.set 0 0, w.note (Call.regQuery c ENTROPY_DATA)) := by
  simp [get_entropy, h]

/-- With `generate`, a failed load followed by a failing random source gives the
empty string and no write. -/
theorem get_entropy_miss_norandom (env : Collab) (w : World) (c : ConfigName) (e : List Byte)
    (sz : Nat)
    (h : GetConfigRegistryValue w c ENTROPY_DATA e sz
          = ((e, 0), w.note (Call.regQuery c ENTROPY_DATA)))
    (hr : env.random sz = none) :
    get_entropy env w c e sz true
      = (e.set 0 0, (w.note (Call.regQuery c ENTROPY_DATA)).note (Call.random sz)) := by
  simp [get_entropy, h, GetRandomPassword, hr]

/-- With `generate`, a failed load followed by a successful generation and a
successful write returns the generated string, now stored. -/
theorem get_entropy_miss_saved (env : Collab) (w : World) (c : ConfigName) (e : List Byte)
    (sz : Nat) (r : List Byte)
    (h : GetConfigRegistryValue w c ENTROPY_DATA e sz
          = ((e, 0), w.note (Call.regQuery c ENTROPY_DATA)))
    (hr : env.random sz = some r)
    (hw : env.regWritable c ENTROPY_DATA ((freshEntropy e r sz).take sz) = true) :
    (get_entropy env w c e sz true).1 = freshEntropy e r sz ∧
    (get_entropy env w c e sz true).2.reg
      = (fun c2 n2 => if c2 = c ∧ n2 = ENTROPY_DATA then some ((freshEntropy e r sz).take sz)
          else w.reg c2 n2) ∧
    (get_entropy env w c e sz true).2.log
      = w.log ++ [Call.regQuery c ENTROPY_DATA, Call.random sz,
          Call.regSet c ENTROPY_DATA ((freshEntropy e r sz).take sz)] := by
  unfold freshEntropy at hw
  simp [get_entropy, h, GetRandomPassword, hr, SetConfigRegistryValueBinary, hw, freshEntropy]

/-- With `generate`, a failed load followed by a successful generation and a failed
write returns the empty string and leaves the registry alone. -/
theorem get_entropy_miss_unsaved (env : Collab) (w : World) (c : ConfigName) (e : List Byte)
    (sz : Nat) (r : List Byte)
    (h : GetConfigRegistryValue w c ENTROPY_DATA e sz
          = ((e, 0), w.note (Call.regQuery c ENTROPY_DATA)))
    (hr : env.random sz = some r)
    (hw : env.regWritable c ENTROPY_DATA ((freshEntropy e r sz).take sz) = false) :
    (get_entropy env w c e sz true).1 = (freshEntropy e r sz).set 0 0 ∧
    (get_entropy env w c e sz true).2.reg = w.reg ∧
    (get_entropy env w c e sz true).2.log
      = w.log ++ [Call.regQuery c ENTROPY_DATA, Call.random sz,
          Call.regSet c ENTROPY_DATA ((freshEntropy e r sz).take sz)] := by
  unfold freshEntropy at hw
  simp [get_entropy, h, GetRandomPassword, hr, SetConfigRegistryValueBinary, hw, freshEntropy]

theorem freshEntropy_length (e r : List Byte) (sz : Nat) :
    (freshEntropy e r sz).length = e.length := by
  simp [freshEntropy, fill_length]

theorem freshEntropy_take (e r : List Byte) (sz : Nat) (h : e.length = sz) :
    (freshEntropy e r sz).take sz = freshEntropy e r sz := by
  apply List.take_of_length_le
  rw [freshEntropy_length, h]

theorem freshEntropy_set (e r : List Byte) (sz : Nat) :
    (freshEntropy e r sz).set (sz - 1) 0 = freshEntropy e r sz := by
  simp [freshEntropy, List.set_set]

/-- A read-only `get_entropy` leaves the registry as it was. -/
theorem get_entropy_reg_false (env : Collab) (w : World) (c : ConfigName) (e : List Byte)
    (sz : Nat) : (get_entropy env w c e sz false).2.reg = w.reg := by
  rcases GetConfigRegistryValue_entropy w c e sz with ⟨v, hv, h0, h1, _⟩ | ⟨_, _, h⟩
  · rw [get_entropy_load env w c e sz false v hv h0 h1]
    rfl
  · rw [get_entropy_miss_false env w c e sz h]
    rfl

/-- Apart from the entropy value of its configuration, `get_entropy` leaves every
registry value as it was. -/
theorem get_entropy_frame (env : Collab) (w : World) (c : ConfigName) (e : List Byte)
    (sz : Nat) (g : Bool) (c2 : ConfigName) (n2 : String)
    (hne : ¬ (c2 = c ∧ n2 = ENTROPY_DATA)) :
    (get_entropy env w c e sz g).2.reg c2 n2 = w.reg c2 n2 := by
  cases g with
  | false => rw [get_entropy_reg_false]
  | true =>
    rcases GetConfigRegistryValue_entropy w c e sz with ⟨v, hv, h0, h1, _⟩ | ⟨_, _, h⟩
    · rw [get_entropy_load env w c e sz true v hv h0 h1]
      rfl
    · cases hr : env.random sz with
      | none =>
        rw [get_entropy_miss_norandom env w c e sz h hr]
        rfl
      | some r =>
        cases hw : env.regWritable c ENTROPY_DATA ((freshEntropy e r sz).take sz) with
        | true =>
          rw [(get_entropy_miss_saved env w c e sz r h hr hw).2.1]
          simp [hne]
        | false =>
          rw [(get_entropy_miss_unsaved env w c e sz r h hr hw).2.1]

theorem cstr_load (e v : List Byte) (h0 : 0 < v.length) (h1 : v.length ≤ e.length) :
    cstr ((fill e v).set (v.length - 1) 0) = cstr (v.set (v.length - 1) 0) := by
  rw [fill_of_le e v h1, List.set_append]
  have : v.length - 1 < v.length := by omega
  simp only [this, if_true]
  exact cstr_append_of_mem _ _ (zero_mem_set_last v h0)

/-- The entropy string that `get_entropy` returns is the one a later read-only load
finds in the registry it leaves behind. -/
theorem get_entropy_agree (env : Collab) (w : World) (c : ConfigName) (e : List Byte)
    (sz : Nat) (g : Bool) (he : e.length = sz) :
    cstr (get_entropy env w c e sz g).1
      = loadedEntropy (get_entropy env w c e sz g).2.reg c sz := by
  rcases GetConfigRegistryValue_entropy w c e sz with ⟨v, hv, h0, h1, _⟩ | ⟨hl, _, h⟩
  · rw [get_entropy_load env w c e sz g v hv h0 h1]
    simp only [note_reg]
    rw [cstr_load e v h0 (by omega)]
    simp [loadedEntropy, hv, h0, h1]
  · cases g with
    | false =>
      rw [get_entropy_miss_false env w c e sz h]
      simp [cstr_set_zero, hl]
    | true =>
      cases hr : env.random sz with
      | none =>
        rw [get_entropy_miss_norandom env w c e sz h hr]
        simp [cstr_set_zero, hl]
      | some r =>
        cases hw : env.regWritable c ENTROPY_DATA ((freshEntropy e r sz).take sz) with
        | true =>
          obtain ⟨h1, h2, _⟩ := get_entropy_miss_saved env w c e sz r h hr hw
          rw [h1, h2, freshEntropy_take e r sz he]
          simp only [loadedEntropy, and_self, if_true, freshEntropy_length, he]
          by_cases hz : 0 < sz
          · simp [hz, freshEntropy_set]
          · have hnil : freshEntropy e r sz = [] :=
              List.length_eq_zero.mp (by rw [freshEntropy_length]; omega)
            simp [hz, hnil, cstr]
        | false =>
          obtain ⟨h1, h2, _⟩ := get_entropy_miss_unsaved env w c e sz r h hr hw
          rw [h1, h2]
          simp [cstr_set_zero, hl]

/-- A read-only `get_entropy` returns the entropy string found in the registry. -/
theorem get_entropy_false_cstr (env : Collab) (w : World) (c : ConfigName) (e : List Byte)
    (sz : Nat) (he : e.length = sz) :
    cstr (get_entropy env w c e sz false).1 = loadedEntropy w.reg c sz := by
  rw [get_entropy_agree env w c e sz false he, get_entropy_reg_false]

theorem crypt_unprotect_fst (env : Collab) (w : World) (data : List Byte) (sz : Nat)
    (e : List Byte) :
    (crypt_unprotect env w data sz e).1 =
      match env.CryptUnprotectData (data.take sz) (cstr e) with
      | some p => (p, p.length)
      | none => ([], 0) := by
  simp only [crypt_unprotect, take_strlen]
  split <;> rfl

theorem crypt_unprotect_log (env : Collab) (w : World) (data : List Byte) (sz : Nat)
    (e : List Byte) :
    (crypt_unprotect env w data sz e).2.log
      = w.log ++ [Call.unprotect (data.take sz) (cstr e)] := by
  simp only [crypt_unprotect, take_strlen]
  split <;> rfl

theorem crypt_protect_some (env : Collab) (w : World) (data : List Byte) (sz : Nat)
    (e blob : List Byte) (h : env.CryptProtectData (data.take sz) (cstr e) = some blob) :
    crypt_protect env w data sz e
      = ((blob, blob.length), w.note (Call.protect (data.take sz) (cstr e))) := by
  simp only [crypt_protect, take_strlen, h]

theorem crypt_protect_none (env : Collab) (w : World) (data : List Byte) (sz : Nat)
    (e : List Byte) (h : env.CryptProtectData (data.take sz) (cstr e) = none) :
    crypt_protect env w data sz e
      = (([], 0), w.note (Call.protect (data.take sz) (cstr e))) := by
  simp only [crypt_protect, take_strlen, h]

theorem recall_encrypted_data_reg (env : Collab) (w : World) (c : ConfigName) (name : String) :
    (recall_encrypted_data env w c name).2.reg = w.reg := by
  unfold recall_encrypted_data
  generalize hg : GetConfigRegistryValue w c name (stackBuf env IN_SIZE) IN_SIZE = g
  have hgr : g.2.reg = w.reg := by rw [← hg]; simp
  obtain ⟨⟨inb, len⟩, w1⟩ := g
  simp only
  by_cases hlen : len = 0
  · simp [hlen]
    exact hgr
  · simp only [hlen, if_false]
    generalize he : get_entropy env w1 c (stackBuf env (ENTROPY_LEN + 1)) (ENTROPY_LEN + 1) false = r
    have her : r.2.reg = w1.reg := by rw [← he]; exact get_entropy_reg_false _ _ _ _ _
    obtain ⟨entropy, w2⟩ := r
    simp only [crypt_unprotect_reg]
    exact her.trans hgr

theorem recall_encrypted_data_fst (env : Collab) (w : World) (c : ConfigName) (name : String) :
    (recall_encrypted_data env w c name).1 = recalled env w.reg c name := by
  unfold recall_encrypted_data recalled
  cases hv : w.reg c name with
  | none =>
    rw [GetConfigRegistryValue_miss w c name _ _ (by simp [hv])]
    simp
  | some blob =>
    by_cases h1 : blob.length ≤ IN_SIZE
    · rw [GetConfigRegistryValue_hit w c name _ _ blob hv h1]
      by_cases h0 : blob.length = 0
      · simp [h0]
      · have hpos : 0 < blob.length := Nat.pos_of_ne_zero h0
        simp only [h0, if_false, hpos, h1, and_self, if_true]
        generalize he : get_entropy env (w.note (Call.regQuery c name)) c
          (stackBuf env (ENTROPY_LEN + 1)) (ENTROPY_LEN + 1) false = r
        have hc : cstr r.1 = loadedEntropy w.reg c (ENTROPY_LEN + 1) := by
          rw [← he, get_entropy_false_cstr _ _ _ _ _ (stackBuf_length _ _)]
          rfl
        obtain ⟨entropy, w2⟩ := r
        simp only at hc
        simp only [crypt_unprotect_fst, hc]
        rw [fill_take _ _ (by rw [stackBuf_length]; exact h1)]
    · rw [GetConfigRegistryValue_miss w c name _ _ (by
        intro v2 h2
        rw [hv] at h2
        simp only [Option.some.injEq] at h2
        subst h2
        omega)]
      simp [h1]

/-- A save whose seal succeeds with a non-empty blob returns 1 and attempts the
registry write of the blob. -/
theorem save_encrypted_data_sealed (env : Collab) (w : World) (c : ConfigName)
    (name : String) (password : List Byte) (len : Nat) (blob : List Byte)
    (h : env.CryptProtectData (password.take len) (cstr (saveEntropy env w c).1) = some blob)
    (hpos : 0 < blob.length) :
    (save_encrypted_data env w c name password len).1 = 1 ∧
    ∀ c2 n2, (save_encrypted_data env w c name password len).2.reg c2 n2 =
      if env.regWritable c name blob = true ∧ c2 = c ∧ n2 = name then some blob
      else (saveEntropy env w c).2.reg c2 n2 := by
  unfold save_encrypted_data
  unfold saveEntropy at h
  unfold saveEntropy
  generalize get_entropy env w c (stackBuf env (ENTROPY_LEN + 1)) (ENTROPY_LEN + 1) true = r at h
  obtain ⟨entropy, w1⟩ := r
  simp only at h
  simp only [crypt_protect_some env w1 password len entropy blob h, hpos, if_true, gt_iff_lt]
  refine ⟨trivial, ?_⟩
  intro c2 n2
  rw [SetConfigRegistryValueBinary_reg]
  simp

/-- A save whose seal fails, or gives an empty blob, returns 0 and writes nothing
beyond what `get_entropy` did. -/
theorem save_encrypted_data_unsealed (env : Collab) (w : World) (c : ConfigName)
    (name : String) (password : List Byte) (len : Nat)
    (h : env.CryptProtectData (password.take len) (cstr (saveEntropy env w c).1) = none ∨
         env.CryptProtectData (password.take len) (cstr (saveEntropy env w c).1) = some []) :
    (save_encrypted_data env w c name password len).1 = 0 ∧
    (save_encrypted_data env w c name password len).2.reg = (saveEntropy env w c).2.reg := by
  unfold save_encrypted_data
  unfold saveEntropy at h
  unfold saveEntropy
  generalize get_entropy env w c (stackBuf env (ENTROPY_LEN + 1)) (ENTROPY_LEN + 1) true = r at h
  obtain ⟨entropy, w1⟩ := r
  simp only at h
  rcases h with h | h
  · simp [crypt_protect_none env w1 password len entropy h]
  · simp [crypt_protect_some env w1 password len entropy [] h]

/-! ## Wide text as bytes -/

theorem wbytes_append (a b : List WChar) : wbytes (a ++ b) = wbytes a ++ wbytes b := by
  induction a with
  | nil => rfl
  | cons x xs ih => simp [wbytes, ih]

theorem wbytes_length (a : List WChar) : (wbytes a).length = 2 * a.length := by
  induction a with
  | nil => rfl
  | cons x xs ih => simp [wbytes, ih]; omega

theorem wstr_split (s : List WChar) (h : 0 ∈ s) : ∃ rest, s = wstr s ++ 0 :: rest := by
  induction s with
  | nil => simp at h
  | cons x xs ih =>
    by_cases hx : x = 0
    · exact ⟨xs, by simp [wstr, List.takeWhile_cons, hx]⟩
    · have hm : 0 ∈ xs := by
        rcases List.mem_cons.mp h with h0 | h0
        · exact absurd h0.symm hx
        · exact h0
      obtain ⟨rest, hr⟩ := ih hm
      refine ⟨rest, ?_⟩
      have : wstr (x :: xs) = x :: wstr xs := by simp [wstr, List.takeWhile_cons, hx]
      rw [this, List.cons_append, ← hr]

theorem wcslen_eq (s : List WChar) : wcslen s = (wstr s).length := rfl

theorem wbytes_take_terminated (d rest : List WChar) :
    (wbytes (d ++ 0 :: rest)).take ((d.length + 1) * 2) = wbytes d ++ [0, 0] := by
  have hlen : (d.length + 1) * 2 = (wbytes d ++ [0, 0]).length := by
    simp [wbytes_length]; omega
  rw [hlen, wbytes_append]
  have : wbytes (0 :: rest) = [0, 0] ++ wbytes rest := by simp [wbytes]
  rw [this, ← List.append_assoc]
  exact List.take_left' rfl

/-- The bytes `save_encrypted` hands to the seal: the text before the first nul
and the two bytes of its terminator. -/
theorem wbytes_take_text (s : List WChar) (h : 0 ∈ s) :
    (wbytes s).take ((wcslen s + 1) * 2) = wbytes (wstr s) ++ [0, 0] := by
  obtain ⟨rest, hr⟩ := wstr_split s h
  have := wbytes_take_terminated (wstr s) rest
  rw [← hr] at this
  exact this

theorem cstr_split (s : List Byte) (h : 0 ∈ s) : ∃ rest, s = cstr s ++ 0 :: rest := by
  induction s with
  | nil => simp at h
  | cons x xs ih =>
    by_cases hx : x = 0
    · exact ⟨xs, by simp [cstr, List.takeWhile_cons, hx]⟩
    · have hm : 0 ∈ xs := by
        rcases List.mem_cons.mp h with h0 | h0
        · exact absurd h0.symm hx
        · exact h0
      obtain ⟨rest, hr⟩ := ih hm
      refine ⟨rest, ?_⟩
      have : cstr (x :: xs) = x :: cstr xs := by simp [cstr, List.takeWhile_cons, hx]
      rw [this, List.cons_append, ← hr]

theorem strlen_eq (s : List Byte) : strlen s = (cstr s).length := rfl

/-- A byte inside the zeroed part of a buffer is zero. -/
theorem zeros_region (d rest : List Byte) (k i : Nat) (h1 : d.length ≤ i)
    (h2 : i < d.length + k) : (d ++ List.replicate k 0 ++ rest)[i]? = some 0 := by
  rw [List.append_assoc, List.getElem?_append_right h1]
  rw [List.getElem?_append_left (by simp; omega)]
  simp [List.getElem?_replicate]
  omega

/-! ## Save followed by the read of a recall -/

theorem cstr_length_lt (s : List Byte) (h : 0 ∈ s) : (cstr s).length < s.length := by
  obtain ⟨rest, hr⟩ := cstr_split s h
  have : s.length = (cstr s).length + (rest.length + 1) := by
    conv_lhs => rw [hr]
    simp
  omega

/-- The entropy string loaded with a buffer of `sz` bytes is shorter than `sz`. -/
theorem loadedEntropy_length (reg : ConfigName → String → Option (List Byte))
    (c : ConfigName) (sz : Nat) (hsz : 0 < sz) : (loadedEntropy reg c sz).length < sz := by
  unfold loadedEntropy
  cases reg c ENTROPY_DATA with
  | none => simpa using hsz
  | some v =>
    by_cases h : 0 < v.length ∧ v.length ≤ sz
    · simp only [h, and_self, if_true]
      have := cstr_length_lt _ (zero_mem_set_last v h.1)
      simp only [List.length_set] at this
      omega
    · simp only [h, if_false]
      simpa using hsz

/-- The entropy string a save seals with has at most `ENTROPY_LEN` bytes. -/
theorem saveEntropy_length (env : Collab) (w : World) (c : ConfigName) :
    (cstr (saveEntropy env w c).1).length ≤ ENTROPY_LEN := by
  unfold saveEntropy
  rw [get_entropy_agree env w c _ _ true (stackBuf_length _ _)]
  have := loadedEntropy_length
    (get_entropy env w c (stackBuf env (ENTROPY_LEN + 1)) (ENTROPY_LEN + 1) true).2.reg c
    (ENTROPY_LEN + 1) (by omega)
  omega

/-- After a save under a name other than the entropy name, with a working seal
and a registry that takes the blob, `recall_encrypted_data` finds the saved bytes. -/
theorem save_then_recalled (env : Collab) (w : World) (c : ConfigName) (name : String)
    (data : List Byte) (len : Nat) (hne : name ≠ ENTROPY_DATA)
    (hput : ∀ d, env.regWritable c name d = true)
    (hseal : ∀ e : List Byte, e.length ≤ ENTROPY_LEN →
      ∃ blob, env.CryptProtectData (data.take len) e = some blob ∧ 0 < blob.length ∧
        blob.length ≤ IN_SIZE ∧ env.CryptUnprotectData blob e = some (data.take len)) :
    (save_encrypted_data env w c name data len).1 = 1 ∧
    recalled env (save_encrypted_data env w c name data len).2.reg c name
      = (data.take len, (data.take len).length) := by
  obtain ⟨blob, hb, hpos, hsz, hun⟩ :=
    hseal (cstr (saveEntropy env w c).1) (saveEntropy_length env w c)
  obtain ⟨h1, h2⟩ := save_encrypted_data_sealed env w c name data len blob hb hpos
  refine ⟨h1, ?_⟩
  have hent : loadedEntropy (save_encrypted_data env w c name data len).2.reg c (ENTROPY_LEN + 1)
      = cstr (saveEntropy env w c).1 := by
    have : (save_encrypted_data env w c name data len).2.reg c ENTROPY_DATA
        = (saveEntropy env w c).2.reg c ENTROPY_DATA := by
      rw [h2]
      have hne2 : ¬ (ENTROPY_DATA = name) := fun h => hne h.symm
      simp [hne2]
    unfold loadedEntropy
    rw [this]
    exact (get_entropy_agree env w c _ _ true (stackBuf_length _ _)).symm
  unfold recalled
  rw [hent, h2]
  simp [hput, hpos, hsz, hun]

/-! ## The recall functions in terms of what the registry holds -/

theorem recall_encrypted_eq (env : Collab) (w : World) (c : ConfigName) (buf : List Byte)
    (cap : Nat) (name : String) :
    recall_encrypted env w c buf cap name =
      (memset buf 0 cap).bind (fun p1 =>
        if (recalled env w.reg c name).2 = 0 then
          some ((p1, 0), (recall_encrypted_data env w c name).2)
        else if (recalled env w.reg c name).2 ≤ cap then
          (memcpy p1 (recalled env w.reg c name).1 (recalled env w.reg c name).2).bind (fun p2 =>
            (storeWChar p2 ((cap / sizeof_WCHAR + SIZE_MOD - 1) % SIZE_MOD) 0).bind (fun p3 =>
              some ((p3, (recalled env w.reg c name).2), (recall_encrypted_data env w c name).2)))
        else some ((p1, 0), (recall_encrypted_data env w c name).2)) := by
  rw [← recall_encrypted_data_fst]
  unfold recall_encrypted
  generalize recall_encrypted_data env w c name = r
  obtain ⟨⟨out, len⟩, w1⟩ := r
  cases memset buf 0 cap with
  | none => rfl
  | some p1 =>
    by_cases h0 : len = 0
    · simp [h0]
    · by_cases h1 : len ≤ cap
      · simp [h0, h1]
      · simp [h0, h1]

theorem recall_encrypted_1_eq (env : Collab) (w : World) (c : ConfigName) (buf : List Byte)
    (cap : Nat) (name : String) :
    recall_encrypted_1 env w c buf cap name =
      (memset buf 0 cap).bind (fun p1 =>
        if (recalled env w.reg c name).2 = 0 then
          some ((p1, 0), (recall_encrypted_data env w c name).2)
        else if (recalled env w.reg c name).2 ≤ cap then
          (memcpy p1 (recalled env w.reg c name).1 (recalled env w.reg c name).2).bind (fun p2 =>
            (storeByte p2 ((cap + DWORD_MOD - 1) % DWORD_MOD) 0).bind (fun p3 =>
              some ((p3, (recalled env w.reg c name).2), (recall_encrypted_data env w c name).2)))
        else some ((p1, 0), (recall_encrypted_data env w c name).2)) := by
  rw [← recall_encrypted_data_fst]
  unfold recall_encrypted_1
  generalize recall_encrypted_data env w c name = r
  obtain ⟨⟨out, len⟩, w1⟩ := r
  cases memset buf 0 cap with
  | none => rfl
  | some p1 =>
    by_cases h0 : len = 0
    · simp [h0]
    · by_cases h1 : len ≤ cap
      · simp [h0, h1]
      · simp [h0, h1]

theorem memset_memcpy (buf plain : List Byte) (cap : Nat) (hle : plain.length ≤ cap)
    (hbuf : cap ≤ buf.length) :
    (memset buf 0 cap).bind (fun p1 => memcpy p1 plain plain.length)
      = some (copied buf plain cap) := by
  have hlen : (List.replicate cap 0 ++ List.drop cap buf).length = buf.length := by
    simp; omega
  simp only [memset, hbuf, if_true, Option.some_bind, memcpy, hlen, le_refl, and_true]
  have h2 : plain.length ≤ buf.length := le_trans hle hbuf
  simp only [h2, if_true, copied, List.take_length, Option.some.injEq, List.append_assoc,
    List.append_cancel_left_eq]
  rw [List.drop_append_eq_append_drop]
  simp only [List.drop_replicate, List.length_replicate]
  have : plain.length - cap = 0 := by omega
  simp [this]

theorem copied_length (buf plain : List Byte) (cap : Nat) (hle : plain.length ≤ cap)
    (hbuf : cap ≤ buf.length) : (copied buf plain cap).length = buf.length := by
  simp [copied]; omega

theorem memset_ok (buf : List Byte) (cap : Nat) (hbuf : cap ≤ buf.length) :
    memset buf 0 cap = some (List.replicate cap 0 ++ buf.drop cap) := by
  simp [memset, hbuf]

theorem memcpy_zeroed (buf plain : List Byte) (cap : Nat) (hle : plain.length ≤ cap)
    (hbuf : cap ≤ buf.length) :
    memcpy (List.replicate cap 0 ++ buf.drop cap) plain plain.length
      = some (copied buf plain cap) := by
  have := memset_memcpy buf plain cap hle hbuf
  rw [memset_ok buf cap hbuf] at this
  exact this

theorem copied_terminated (buf d : List Byte) (cap : Nat) (hle : d.length + 2 ≤ cap) :
    copied buf (d ++ [0, 0]) cap = d ++ List.replicate (cap - d.length) 0 ++ buf.drop cap := by
  unfold copied
  have h : cap - d.length = (cap - (d ++ [0, 0]).length) + 2 := by
    simp; omega
  rw [h, List.replicate_succ, List.replicate_succ]
  simp

/-- The wide index of the forced terminator of `recall_encrypted`. -/
theorem wide_index (cap : Nat) (h2 : 2 ≤ cap) (hdw : cap < DWORD_MOD) :
    (cap / sizeof_WCHAR + SIZE_MOD - 1) % SIZE_MOD = cap / 2 - 1 := by
  unfold sizeof_WCHAR SIZE_MOD
  unfold DWORD_MOD at hdw
  omega

/-- A recall of a stored wide text that fits: the buffer holds the text and zeros
up to the capacity, and the length with the terminator is returned. -/
theorem recall_encrypted_text (env : Collab) (w : World) (c : ConfigName) (buf : List Byte)
    (cap : Nat) (name : String) (t : List WChar)
    (hr : recalled env w.reg c name = (wbytes t ++ [0, 0], (wbytes t ++ [0, 0]).length))
    (hcap : (t.length + 1) * 2 ≤ cap) (hbuf : cap ≤ buf.length) (hdw : cap < DWORD_MOD) :
    ∃ w2, recall_encrypted env w c buf cap name
        = some ((wbytes t ++ List.replicate (cap - 2 * t.length) 0 ++ buf.drop cap,
            (t.length + 1) * 2), w2) ∧ w2.reg = w.reg := by
  refine ⟨(recall_encrypted_data env w c name).2, ?_, recall_encrypted_data_reg env w c name⟩
  have hl : (wbytes t).length = 2 * t.length := wbytes_length t
  have hlen : (wbytes t ++ [0, 0]).length = (t.length + 1) * 2 := by
    simp [hl]; omega
  rw [recall_encrypted_eq, hr, memset_ok buf cap hbuf]
  simp only [Option.some_bind, hlen]
  have hne : ¬ ((t.length + 1) * 2 = 0) := by omega
  simp only [hne, if_false, hcap, if_true]
  have hcpy := memcpy_zeroed buf (wbytes t ++ [0, 0]) cap (by rw [hlen]; exact hcap) hbuf
  rw [hlen] at hcpy
  rw [hcpy, copied_terminated buf (wbytes t) cap (by rw [hl]; omega), hl]
  simp only [Option.some_bind]
  rw [wide_index cap (by omega) hdw]
  have hblen : (wbytes t ++ List.replicate (cap - 2 * t.length) 0 ++ List.drop cap buf).length
      = buf.length := by
    simp [hl]; omega
  have hin : 2 * (cap / 2 - 1) + 1 < buf.length := by omega
  simp only [storeWChar, hblen, hin, if_true, Nat.zero_mod, Nat.zero_div, Option.some_bind]
  have z1 := zeros_region (wbytes t) (List.drop cap buf) (cap - 2 * t.length) (2 * (cap / 2 - 1))
    (by rw [hl]; omega) (by rw [hl]; omega)
  have z2 := zeros_region (wbytes t) (List.drop cap buf) (cap - 2 * t.length)
    (2 * (cap / 2 - 1) + 1) (by rw [hl]; omega) (by rw [hl]; omega)
  rw [set_noop _ _ _ z1, set_noop _ _ _ z2]

/-- The byte index of the forced terminator of `recall_encrypted_1`. -/
theorem byte_index (cap : Nat) (h1 : 1 ≤ cap) (hdw : cap < DWORD_MOD) :
    (cap + DWORD_MOD - 1) % DWORD_MOD = cap - 1 := by
  unfold DWORD_MOD at hdw ⊢
  omega

/-- A recall of a stored non-empty byte string shorter than the capacity: the buffer
holds the bytes and zeros up to the capacity, and the length is returned. -/
theorem recall_encrypted_1_bytes (env : Collab) (w : World) (c : ConfigName) (buf : List Byte)
    (cap : Nat) (name : String) (d : List Byte)
    (hr : recalled env w.reg c name = (d, d.length)) (h0 : 0 < d.length)
    (hcap : d.length < cap) (hbuf : cap ≤ buf.length) (hdw : cap < DWORD_MOD) :
    ∃ w2, recall_encrypted_1 env w c buf cap name
        = some ((d ++ List.replicate (cap - d.length) 0 ++ buf.drop cap, d.length), w2) ∧
      w2.reg = w.reg := by
  refine ⟨(recall_encrypted_data env w c name).2, ?_, recall_encrypted_data_reg env w c name⟩
  rw [recall_encrypted_1_eq, hr, memset_ok buf cap hbuf]
  simp only [Option.some_bind]
  have hne : ¬ (d.length = 0) := by omega
  simp only [hne, if_false, le_of_lt hcap, if_true]
  rw [memcpy_zeroed buf d cap (le_of_lt hcap) hbuf]
  simp only [Option.some_bind]
  rw [byte_index cap (by omega) hdw]
  have hblen : (copied buf d cap).length = buf.length :=
    copied_length buf d cap (le_of_lt hcap) hbuf
  have hin : cap - 1 < buf.length := by omega
  simp only [storeByte, hblen, hin, if_true, Option.some_bind]
  have z1 := zeros_region d (List.drop cap buf) (cap - d.length) (cap - 1)
    (by omega) (by omega)
  unfold copied
  rw [set_noop _ _ _ z1]

/-- A recall when nothing is recalled (no value, an unreadable one, a failed unseal,
an empty plaintext): the buffer is zeroed up to the capacity and 0 is returned. -/
theorem recall_encrypted_none (env : Collab) (w : World) (c : ConfigName) (buf : List Byte)
    (cap : Nat) (name : String) (hr : (recalled env w.reg c name).2 = 0)
    (hbuf : cap ≤ buf.length) :
    ∃ w2, recall_encrypted env w c buf cap name
        = some ((List.replicate cap 0 ++ buf.drop cap, 0), w2) ∧ w2.reg = w.reg := by
  refine ⟨(recall_encrypted_data env w c name).2, ?_, recall_encrypted_data_reg env w c name⟩
  rw [recall_encrypted_eq, hr, memset_ok buf cap hbuf]
  simp

theorem recall_encrypted_1_none (env : Collab) (w : World) (c : ConfigName) (buf : List Byte)
    (cap : Nat) (name : String) (hr : (recalled env w.reg c name).2 = 0)
    (hbuf : cap ≤ buf.length) :
    ∃ w2, recall_encrypted_1 env w c buf cap name
        = some ((List.replicate cap 0 ++ buf.drop cap, 0), w2) ∧ w2.reg = w.reg := by
  refine ⟨(recall_encrypted_data env w c name).2, ?_, recall_encrypted_data_reg env w c name⟩
  rw [recall_encrypted_1_eq, hr, memset_ok buf cap hbuf]
  simp

/-- A recall of a plaintext longer than the capacity: the buffer is zeroed up to the
capacity and 0 is returned. -/
theorem recall_encrypted_long (env : Collab) (w : World) (c : ConfigName) (buf : List Byte)
    (cap : Nat) (name : String) (hr : cap < (recalled env w.reg c name).2)
    (hbuf : cap ≤ buf.length) :
    ∃ w2, recall_encrypted env w c buf cap name
        = some ((List.replicate cap 0 ++ buf.drop cap, 0), w2) ∧ w2.reg = w.reg := by
  refine ⟨(recall_encrypted_data env w c name).2, ?_, recall_encrypted_data_reg env w c name⟩
  rw [recall_encrypted_eq, memset_ok buf cap hbuf]
  have h0 : ¬ ((recalled env w.reg c name).2 = 0) := by omega
  have h1 : ¬ ((recalled env w.reg c name).2 ≤ cap) := by omega
  simp [h0, h1]

theorem recall_encrypted_1_long (env : Collab) (w : World) (c : ConfigName) (buf : List Byte)
    (cap : Nat) (name : String) (hr : cap < (recalled env w.reg c name).2)
    (hbuf : cap ≤ buf.length) :
    ∃ w2, recall_encrypted_1 env w c buf cap name
        = some ((List.replicate cap 0 ++ buf.drop cap, 0), w2) ∧ w2.reg = w.reg := by
  refine ⟨(recall_encrypted_data env w c name).2, ?_, recall_encrypted_data_reg env w c name⟩
  rw [recall_encrypted_1_eq, memset_ok buf cap hbuf]
  have h0 : ¬ ((recalled env w.reg c name).2 = 0) := by omega
  have h1 : ¬ ((recalled env w.reg c name).2 ≤ cap) := by omega
  simp [h0, h1]

/-! ## Round trips -/

/-- Round trip of a wide text through `save_encrypted` and `recall_encrypted` under
any value name other than the entropy name. -/
theorem text_round_trip (env : Collab) (w : World) (c : ConfigName) (name : String)
    (p : List WChar) (buf : List Byte) (capacity : Nat) (hne : name ≠ ENTROPY_DATA)
    (hnul : 0 ∈ p) (hfit : (wcslen p + 1) * 2 ≤ capacity) (hdw : capacity < DWORD_MOD)
    (hbuf : capacity ≤ buf.length) (hput : ∀ d, env.regWritable c name d = true)
    (hseal : ∀ e : List Byte, e.length ≤ ENTROPY_LEN → ∃ blob,
      env.CryptProtectData (wbytes (wstr p) ++ [0, 0]) e = some blob ∧ 0 < blob.length ∧
      blob.length ≤ 2048 ∧ env.CryptUnprotectData blob e = some (wbytes (wstr p) ++ [0, 0])) :
    (save_encrypted env w c p name).1 = 1 ∧
    ∃ w2, recall_encrypted env (save_encrypted env w c p name).2 c buf capacity name
      = some ((wbytes (wstr p) ++ List.replicate (capacity - 2 * wcslen p) 0 ++ buf.drop capacity,
          (wcslen p + 1) * 2), w2) := by
  have hmod : (wcslen p + 1) * sizeof_WCHAR % DWORD_MOD = (wcslen p + 1) * 2 := by
    unfold sizeof_WCHAR
    exact Nat.mod_eq_of_lt (lt_of_le_of_lt hfit hdw)
  have htake := wbytes_take_text p hnul
  unfold save_encrypted
  rw [hmod]
  obtain ⟨h1, h2⟩ := save_then_recalled env w c name (wbytes p) ((wcslen p + 1) * 2) hne hput
    (by rw [htake]; exact hseal)
  refine ⟨h1, ?_⟩
  rw [htake] at h2
  obtain ⟨w2, h3, _⟩ := recall_encrypted_text env
    (save_encrypted_data env w c name (wbytes p) ((wcslen p + 1) * 2)).2 c buf capacity name
    (wstr p) h2 hfit hbuf hdw
  exact ⟨w2, h3⟩

/-- C1: round trip of the wide-text secrets. For every configuration, every
nul-terminated wide string `p` (its text is `wstr p`) and every capacity with
`(wcslen p + 1) * 2 ≤ capacity` offered with a buffer of at least that many bytes,
over a registry that takes the blob and a primitive that seals the text to a blob of
1 to 2048 bytes and unseals it again, `SaveKeyPass` returns 1 and the following
`RecallKeyPass` returns `(wcslen p + 1) * 2` and leaves the text followed by zeros
in the `capacity` bytes of the buffer; the same for `SaveAuthPass`/`RecallAuthPass`. -/
theorem C1_wide_text_round_trip (env : Collab) (w : World) (c : ConfigName) (p : List WChar)
    (buf : List Byte) (capacity : Nat)
    (hnul : 0 ∈ p) (hfit : (wcslen p + 1) * 2 ≤ capacity) (hdw : capacity < DWORD_MOD)
    (hbuf : capacity ≤ buf.length)
    (hput : ∀ d, env.regWritable c KEY_PASS_DATA d = true ∧
      env.regWritable c AUTH_PASS_DATA d = true)
    (hseal : ∀ e : List Byte, e.length ≤ ENTROPY_LEN → ∃ blob,
      env.CryptProtectData (wbytes (wstr p) ++ [0, 0]) e = some blob ∧ 0 < blob.length ∧
      blob.length ≤ 2048 ∧ env.CryptUnprotectData blob e = some (wbytes (wstr p) ++ [0, 0])) :
    ((SaveKeyPass env w c p).1 = 1 ∧
      ∃ w2, RecallKeyPass env (SaveKeyPass env w c p).2 c buf capacity
        = some ((wbytes (wstr p) ++ List.replicate (capacity - 2 * wcslen p) 0
            ++ buf.drop capacity, (wcslen p + 1) * 2), w2)) ∧
    ((SaveAuthPass env w c p).1 = 1 ∧
      ∃ w2, RecallAuthPass env (SaveAuthPass env w c p).2 c buf capacity
        = some ((wbytes (wstr p) ++ List.replicate (capacity - 2 * wcslen p) 0
            ++ buf.drop capacity, (wcslen p + 1) * 2), w2)) :=
  ⟨text_round_trip env w c KEY_PASS_DATA p buf capacity (by decide) hnul hfit hdw hbuf
      (fun d => (hput d).1) hseal,
   text_round_trip env w c AUTH_PASS_DATA p buf capacity (by decide) hnul hfit hdw hbuf
      (fun d => (hput d).2) hseal⟩

/-- The toy primitive unseals what it sealed and its blob is two bytes longer than
the entropy and the data. -/
theorem toySeal_round_trip (x e : List Byte) (hx : x.length + ENTROPY_LEN + 2 ≤ 2048)
    (he : e.length ≤ ENTROPY_LEN) :
    ∃ blob, toyEnv.CryptProtectData x e = some blob ∧ 0 < blob.length ∧
      blob.length ≤ 2048 ∧ toyEnv.CryptUnprotectData blob e = some x := by
  refine ⟨77 :: e.length :: (e ++ x), rfl, by simp, ?_, ?_⟩
  · simp only [List.length_cons, List.length_append]
    omega
  · simp [toyEnv, toyUnseal]

/-- Witness of C1: the text `ab` recalled into a buffer of 10 bytes. -/
theorem C1_wide_text_round_trip_witness :
    ((SaveKeyPass toyEnv emptyWorld "vpn" [97, 98, 0]).1 = 1 ∧
      ∃ w2, RecallKeyPass toyEnv (SaveKeyPass toyEnv emptyWorld "vpn" [97, 98, 0]).2 "vpn"
          (List.replicate 10 1) 10
        = some ((wbytes (wstr [97, 98, 0]) ++ List.replicate (10 - 2 * wcslen [97, 98, 0]) 0
            ++ (List.replicate 10 1).drop 10, (wcslen [97, 98, 0] + 1) * 2), w2)) ∧
    ((SaveAuthPass toyEnv emptyWorld "vpn" [97, 98, 0]).1 = 1 ∧
      ∃ w2, RecallAuthPass toyEnv (SaveAuthPass toyEnv emptyWorld "vpn" [97, 98, 0]).2 "vpn"
          (List.replicate 10 1) 10
        = some ((wbytes (wstr [97, 98, 0]) ++ List.replicate (10 - 2 * wcslen [97, 98, 0]) 0
            ++ (List.replicate 10 1).drop 10, (wcslen [97, 98, 0] + 1) * 2), w2)) :=
  C1_wide_text_round_trip toyEnv emptyWorld "vpn" [97, 98, 0] (List.replicate 10 1) 10
    (by decide) (by decide) (by decide) (by decide) (fun _ => ⟨rfl, rfl⟩)
    (fun e he => toySeal_round_trip _ e (by decide) he)

/-- Round trip of a byte string through `SaveTotpPass` and `RecallTotpPass`: the
string is the bytes of `p` before its first nul, and it must be shorter than the
capacity, or empty. -/
theorem bytes_round_trip (env : Collab) (w : World) (c : ConfigName) (p : List Byte)
    (buf : List Byte) (capacity : Nat) (hfit : strlen p < capacity ∨ strlen p = 0)
    (hdw : capacity < DWORD_MOD) (hbuf : capacity ≤ buf.length)
    (hput : ∀ d, env.regWritable c TOTP_PASS_DATA d = true)
    (hseal : ∀ e : List Byte, e.length ≤ ENTROPY_LEN → ∃ blob,
      env.CryptProtectData (cstr p) e = some blob ∧ 0 < blob.length ∧
      blob.length ≤ 2048 ∧ env.CryptUnprotectData blob e = some (cstr p)) :
    (SaveTotpPass env w c p).1 = 1 ∧
    ∃ w2, RecallTotpPass env (SaveTotpPass env w c p).2 c buf capacity
      = some ((cstr p ++ List.replicate (capacity - strlen p) 0 ++ buf.drop capacity,
          strlen p), w2) := by
  have hmod : strlen p % DWORD_MOD = strlen p := by
    apply Nat.mod_eq_of_lt
    rcases hfit with h | h
    · omega
    · rw [h]; unfold DWORD_MOD; omega
  have htake := take_strlen p
  unfold SaveTotpPass RecallTotpPass
  rw [hmod]
  obtain ⟨h1, h2⟩ := save_then_recalled env w c TOTP_PASS_DATA p (strlen p) (by decide) hput
    (by rw [htake]; exact hseal)
  refine ⟨h1, ?_⟩
  rw [htake] at h2
  have hlen : (cstr p).length = strlen p := rfl
  by_cases h0 : strlen p = 0
  · have hnil : cstr p = [] := List.length_eq_zero.mp h0
    obtain ⟨w2, h3, _⟩ := recall_encrypted_1_none env
      (save_encrypted_data env w c TOTP_PASS_DATA p (strlen p)).2 c buf capacity TOTP_PASS_DATA
      (by rw [h2, hlen, h0]) hbuf
    refine ⟨w2, ?_⟩
    rw [h3, hnil, h0]
    simp
  · have hlt : strlen p < capacity := by
      rcases hfit with h | h
      · exact h
      · exact absurd h h0
    obtain ⟨w2, h3, _⟩ := recall_encrypted_1_bytes env
      (save_encrypted_data env w c TOTP_PASS_DATA p (strlen p)).2 c buf capacity TOTP_PASS_DATA
      (cstr p) h2 (by rw [hlen]; omega) (by rw [hlen]; exact hlt) hbuf hdw
    refine ⟨w2, ?_⟩
    rw [h3, hlen]

theorem cstr_replicate (n : Nat) (b : Byte) (hb : b ≠ 0) :
    cstr (List.replicate n b ++ [0]) = List.replicate n b := by
  induction n with
  | zero => simp [cstr, List.takeWhile_cons]
  | succ k ih =>
    have h : cstr (b :: (List.replicate k b ++ [0])) = b :: cstr (List.replicate k b ++ [0]) := by
      simp [cstr, List.takeWhile_cons, hb]
    rw [List.replicate_succ, List.cons_append, h, ih]

/-- A string of more than 2030 bytes is saved with the toy primitive as a blob of
more than 2048 bytes, which the buffer `BYTE in[2048]` of `recall_encrypted_data`
does not take: the recall returns 0. -/
theorem long_string_not_recalled (n cap : Nat) (hn : 2030 < n) (hlt : n < DWORD_MOD) :
    (SaveTotpPass toyEnv emptyWorld "vpn" (List.replicate n 97 ++ [0])).1 = 1 ∧
    Option.map List.length
        ((SaveTotpPass toyEnv emptyWorld "vpn" (List.replicate n 97 ++ [0])).2.reg "vpn"
          TOTP_PASS_DATA)
      = some (n + 18) ∧
    Option.map Prod.fst
        (RecallTotpPass toyEnv
          (SaveTotpPass toyEnv emptyWorld "vpn" (List.replicate n 97 ++ [0])).2 "vpn"
          (List.replicate cap 1) cap)
      = some (List.replicate cap 0, 0) := by
  have hE : cstr (saveEntropy toyEnv emptyWorld "vpn").1 = List.replicate 16 65 := by decide
  have hc : cstr (List.replicate n 97 ++ [0]) = List.replicate n 97 :=
    cstr_replicate n 97 (by decide)
  have hs : strlen (List.replicate n 97 ++ [0]) = n := by
    rw [strlen_eq, hc, List.length_replicate]
  have hmod : strlen (List.replicate n 97 ++ [0]) % DWORD_MOD = n := by
    rw [hs]
    exact Nat.mod_eq_of_lt hlt
  have hD : (List.replicate n 97 ++ [0]).take n = List.replicate n 97 := by
    have := take_strlen (List.replicate n 97 ++ [0])
    rw [hs, hc] at this
    exact this
  have hb : toyEnv.CryptProtectData ((List.replicate n 97 ++ [0]).take n)
      (cstr (saveEntropy toyEnv emptyWorld "vpn").1)
      = some (77 :: 16 :: (List.replicate 16 65 ++ List.replicate n 97)) := by
    rw [hD, hE]
    rfl
  have hlen : (77 :: 16 :: (List.replicate 16 65 ++ List.replicate n 97)).length = n + 18 := by
    simp only [List.length_cons, List.length_append, List.length_replicate]
    omega
  obtain ⟨h1, h2⟩ := save_encrypted_data_sealed toyEnv emptyWorld "vpn" TOTP_PASS_DATA
    (List.replicate n 97 ++ [0]) n _ hb (by rw [hlen]; omega)
  have hreg : (save_encrypted_data toyEnv emptyWorld "vpn" TOTP_PASS_DATA
      (List.replicate n 97 ++ [0]) n).2.reg "vpn" TOTP_PASS_DATA
      = some (77 :: 16 :: (List.replicate 16 65 ++ List.replicate n 97)) := by
    rw [h2]
    have hw : toyEnv.regWritable "vpn" TOTP_PASS_DATA
        (77 :: 16 :: (List.replicate 16 65 ++ List.replicate n 97)) = true := rfl
    rw [if_pos ⟨hw, rfl, rfl⟩]
  unfold SaveTotpPass RecallTotpPass
  rw [hmod]
  refine ⟨h1, ?_, ?_⟩
  · rw [hreg, Option.map_some', hlen]
  · have hr : (recalled toyEnv (save_encrypted_data toyEnv emptyWorld "vpn" TOTP_PASS_DATA
        (List.replicate n 97 ++ [0]) n).2.reg "vpn" TOTP_PASS_DATA).2 = 0 := by
      unfold recalled
      rw [hreg]
      have hbig : ¬ (0 < (77 :: 16 :: (List.replicate 16 65 ++ List.replicate n 97)).length ∧
          (77 :: 16 :: (List.replicate 16 65 ++ List.replicate n 97)).length ≤ IN_SIZE) := by
        rw [hlen]
        unfold IN_SIZE
        omega
      simp only [hbig, if_false]
    obtain ⟨w2, h3, -⟩ := recall_encrypted_1_none toyEnv _ "vpn" (List.replicate cap 1) cap
      TOTP_PASS_DATA hr (by rw [List.length_replicate])
    rw [h3, Option.map_some']
    have hdrop : (List.replicate cap (1 : Byte)).drop cap = [] :=
      List.drop_eq_nil_of_le (by rw [List.length_replicate])
    rw [hdrop, List.append_nil]

/-- Counterexample to C2 as stated. (a) The byte string `a`, nul, `b` (length 3,
capacity 8): `SaveTotpPass` takes a C string, so only `a` is saved, the recall
returns 1 and the buffer holds `a` and zeros. (b) The byte string `ab` with capacity
2 (length at most capacity): the forced terminator overwrites `b`. (c) A string of
2100 bytes with capacity 2200 and a primitive that unseals what it sealed: the blob
has 2118 bytes, the read into `BYTE in[2048]` gets nothing and the recall returns
0. (d) The string `ab` with a primitive that always fails: the save returns 0 and
the recall returns 0. (e) The string `ab` with a registry that refuses the write:
the recall returns 0. -/
theorem C2_counterexample :
    ((SaveTotpPass toyEnv emptyWorld "vpn" [97, 0, 98, 0]).1 = 1 ∧
      Option.map Prod.fst
        (RecallTotpPass toyEnv (SaveTotpPass toyEnv emptyWorld "vpn" [97, 0, 98, 0]).2 "vpn"
          (List.replicate 8 1) 8)
        = some ([97, 0, 0, 0, 0, 0, 0, 0], 1) ∧
      ([97, 0, 0, 0, 0, 0, 0, 0], 1) ≠ (([97, 0, 98, 0, 0, 0, 0, 0] : List Byte), 3)) ∧
    ((SaveTotpPass toyEnv emptyWorld "vpn" [97, 98, 0]).1 = 1 ∧
      Option.map Prod.fst
        (RecallTotpPass toyEnv (SaveTotpPass toyEnv emptyWorld "vpn" [97, 98, 0]).2 "vpn"
          [1, 1] 2)
        = some ([97, 0], 2) ∧
      ([97, 0], 2) ≠ (([97, 98] : List Byte), 2)) ∧
    ((SaveTotpPass toyEnv emptyWorld "vpn" (List.replicate 2100 97 ++ [0])).1 = 1 ∧
      Option.map List.length
          ((SaveTotpPass toyEnv emptyWorld "vpn" (List.replicate 2100 97 ++ [0])).2.reg "vpn"
            TOTP_PASS_DATA)
        = some 2118 ∧
      Option.map Prod.fst
          (RecallTotpPass toyEnv
            (SaveTotpPass toyEnv emptyWorld "vpn" (List.replicate 2100 97 ++ [0])).2 "vpn"
            (List.replicate 2200 1) 2200)
        = some (List.replicate 2200 0, 0)) ∧
    ((SaveTotpPass failEnv emptyWorld "vpn" [97, 98, 0]).1 = 0 ∧
      Option.map Prod.fst
        (RecallTotpPass failEnv (SaveTotpPass failEnv emptyWorld "vpn" [97, 98, 0]).2 "vpn"
          [1, 1, 1] 3)
        = some ([0, 0, 0], 0)) ∧
    ((SaveTotpPass readOnlyEnv emptyWorld "vpn" [97, 98, 0]).1 = 1 ∧
      Option.map Prod.fst
        (RecallTotpPass readOnlyEnv (SaveTotpPass readOnlyEnv emptyWorld "vpn" [97, 98, 0]).2
          "vpn" [1, 1, 1] 3)
        = some ([0, 0, 0], 0)) := by
  refine ⟨⟨by decide, ?_, by decide⟩, ⟨by decide, ?_, by decide⟩,
    long_string_not_recalled 2100 2200 (by decide) (by decide),
    ⟨by decide, ?_⟩, ⟨by decide, ?_⟩⟩
  · obtain ⟨-, w2, h⟩ := bytes_round_trip toyEnv emptyWorld "vpn" [97, 0, 98, 0]
      (List.replicate 8 1) 8 (by decide) (by decide) (by decide) (fun _ => rfl)
      (fun e he => toySeal_round_trip _ e (by decide) he)
    rw [h]
    simp only [Option.map_some']
    decide
  · have hr : recalled toyEnv (SaveTotpPass toyEnv emptyWorld "vpn" [97, 98, 0]).2.reg "vpn"
        TOTP_PASS_DATA = ([97, 98], 2) := by decide
    unfold RecallTotpPass
    rw [recall_encrypted_1_eq, hr]
    decide
  · have hr : recalled failEnv (SaveTotpPass failEnv emptyWorld "vpn" [97, 98, 0]).2.reg "vpn"
        TOTP_PASS_DATA = ([], 0) := by decide
    unfold RecallTotpPass
    rw [recall_encrypted_1_eq, hr]
    decide
  · have hr : recalled readOnlyEnv
        (SaveTotpPass readOnlyEnv emptyWorld "vpn" [97, 98, 0]).2.reg "vpn"
        TOTP_PASS_DATA = ([], 0) := by decide
    unfold RecallTotpPass
    rw [recall_encrypted_1_eq, hr]
    decide

/-- C2 (amended): round trip of the TOTP byte string. For every configuration, every
capacity (a `DWORD`) with a buffer of at least that many bytes, and every
nul-terminated byte string (the bytes of `p` before its first nul) that is shorter
than the capacity, or empty, over a registry that takes the write under
`totp-data` and a primitive that, for every entropy string of at most `ENTROPY_LEN`
bytes, seals the string to a blob of 1 to 2048 bytes and unseals that blob to the
string, `SaveTotpPass` returns 1 and the following `RecallTotpPass` returns the
length of the string and leaves the string followed by zeros in the `capacity`
bytes of the buffer. -/
theorem C2_totp_round_trip (env : Collab) (w : World) (c : ConfigName) (p : List Byte)
    (buf : List Byte) (capacity : Nat) (hfit : strlen p < capacity ∨ strlen p = 0)
    (hdw : capacity < DWORD_MOD) (hbuf : capacity ≤ buf.length)
    (hput : ∀ d, env.regWritable c TOTP_PASS_DATA d = true)
    (hseal : ∀ e : List Byte, e.length ≤ ENTROPY_LEN → ∃ blob,
      env.CryptProtectData (cstr p) e = some blob ∧ 0 < blob.length ∧
      blob.length ≤ 2048 ∧ env.CryptUnprotectData blob e = some (cstr p)) :
    (SaveTotpPass env w c p).1 = 1 ∧
    ∃ w2, RecallTotpPass env (SaveTotpPass env w c p).2 c buf capacity
      = some ((cstr p ++ List.replicate (capacity - strlen p) 0 ++ buf.drop capacity,
          strlen p), w2) :=
  bytes_round_trip env w c p buf capacity hfit hdw hbuf hput hseal

/-- Witness of C2 (amended): the string `ab` recalled into a buffer of 3 bytes. -/
theorem C2_totp_round_trip_witness :
    (SaveTotpPass toyEnv emptyWorld "vpn" [97, 98, 0]).1 = 1 ∧
    ∃ w2, RecallTotpPass toyEnv (SaveTotpPass toyEnv emptyWorld "vpn" [97, 98, 0]).2 "vpn"
        [1, 1, 1] 3
      = some ((cstr [97, 98, 0] ++ List.replicate (3 - strlen [97, 98, 0]) 0
          ++ ([1, 1, 1] : List Byte).drop 3, strlen [97, 98, 0]), w2) :=
  C2_totp_round_trip toyEnv emptyWorld "vpn" [97, 98, 0] [1, 1, 1] 3
    (by decide) (by decide) (by decide) (fun _ => rfl)
    (fun e he => toySeal_round_trip _ e (by decide) he)

/-! ## Store failures on save -/

/-- C3 (the code at the failing input): with a registry that refuses every write,
`SaveKeyPass`, `SaveAuthPass` and `SaveTotpPass` still return 1: the last call of
each is the refused write of the sealed blob, and nothing is stored under the key. -/
theorem C3_refused_write_returns_one :
    (readOnlyEnv.regWritable "vpn" KEY_PASS_DATA [77, 0, 97, 0, 0, 0] = false ∧
      (SaveKeyPass readOnlyEnv emptyWorld "vpn" [97, 0]).2.log.getLast?
        = some (Call.regSet "vpn" KEY_PASS_DATA [77, 0, 97, 0, 0, 0]) ∧
      (SaveKeyPass readOnlyEnv emptyWorld "vpn" [97, 0]).1 = 1 ∧
      (SaveKeyPass readOnlyEnv emptyWorld "vpn" [97, 0]).2.reg "vpn" KEY_PASS_DATA = none) ∧
    (readOnlyEnv.regWritable "vpn" AUTH_PASS_DATA [77, 0, 97, 0, 0, 0] = false ∧
      (SaveAuthPass readOnlyEnv emptyWorld "vpn" [97, 0]).2.log.getLast?
        = some (Call.regSet "vpn" AUTH_PASS_DATA [77, 0, 97, 0, 0, 0]) ∧
      (SaveAuthPass readOnlyEnv emptyWorld "vpn" [97, 0]).1 = 1 ∧
      (SaveAuthPass readOnlyEnv emptyWorld "vpn" [97, 0]).2.reg "vpn" AUTH_PASS_DATA = none) ∧
    (readOnlyEnv.regWritable "vpn" TOTP_PASS_DATA [77, 0, 97] = false ∧
      (SaveTotpPass readOnlyEnv emptyWorld "vpn" [97, 0]).2.log.getLast?
        = some (Call.regSet "vpn" TOTP_PASS_DATA [77, 0, 97]) ∧
      (SaveTotpPass readOnlyEnv emptyWorld "vpn" [97, 0]).1 = 1 ∧
      (SaveTotpPass readOnlyEnv emptyWorld "vpn" [97, 0]).2.reg "vpn" TOTP_PASS_DATA = none) := by
  refine ⟨⟨rfl, ?_, ?_, ?_⟩, ⟨rfl, ?_, ?_, ?_⟩, ⟨rfl, ?_, ?_, ?_⟩⟩ <;> decide

/-! ## Recall and the probes are read-only -/

theorem IsKeyPassSaved_reg (w : World) (c : ConfigName) : (IsKeyPassSaved w c).2.reg = w.reg := by
  unfold IsKeyPassSaved
  exact GetConfigRegistryValue_NULL_reg w c KEY_PASS_DATA

theorem IsAuthPassSaved_reg (w : World) (c : ConfigName) :
    (IsAuthPassSaved w c).2.reg = w.reg := by
  unfold IsAuthPassSaved
  exact GetConfigRegistryValue_NULL_reg w c AUTH_PASS_DATA

theorem IsTotpPassSaved_reg (w : World) (c : ConfigName) :
    (IsTotpPassSaved w c).2.reg = w.reg := by
  unfold IsTotpPassSaved
  exact GetConfigRegistryValue_NULL_reg w c TOTP_PASS_DATA

theorem GetConfigRegistryValue_NULL_fst (w : World) (c : ConfigName) (n : String) :
    (GetConfigRegistryValue_NULL w c n).1 = match w.reg c n with
      | some v => v.length
      | none => 0 := by
  unfold GetConfigRegistryValue_NULL
  cases w.reg c n <;> rfl

/-- A sealed recall that returns leaves the registry as it was. -/
theorem recall_encrypted_frame (env : Collab) (w : World) (c : ConfigName) (buf : List Byte)
    (cap : Nat) (name : String) (r : (List Byte × Nat) × World)
    (h : recall_encrypted env w c buf cap name = some r) : r.2.reg = w.reg := by
  rw [recall_encrypted_eq] at h
  have hw : r.2 = (recall_encrypted_data env w c name).2 := by
    simp only [Option.bind_eq_some] at h
    obtain ⟨p1, -, h⟩ := h
    split_ifs at h
    · simp only [Option.some.injEq] at h
      rw [← h]
    · simp only [Option.bind_eq_some] at h
      obtain ⟨p2, -, p3, -, h⟩ := h
      simp only [Option.some.injEq] at h
      rw [← h]
    · simp only [Option.some.injEq] at h
      rw [← h]
  rw [hw, recall_encrypted_data_reg]

theorem recall_encrypted_1_frame (env : Collab) (w : World) (c : ConfigName) (buf : List Byte)
    (cap : Nat) (name : String) (r : (List Byte × Nat) × World)
    (h : recall_encrypted_1 env w c buf cap name = some r) : r.2.reg = w.reg := by
  rw [recall_encrypted_1_eq] at h
  have hw : r.2 = (recall_encrypted_data env w c name).2 := by
    simp only [Option.bind_eq_some] at h
    obtain ⟨p1, -, h⟩ := h
    split_ifs at h
    · simp only [Option.some.injEq] at h
      rw [← h]
    · simp only [Option.bind_eq_some] at h
      obtain ⟨p2, -, p3, -, h⟩ := h
      simp only [Option.some.injEq] at h
      rw [← h]
    · simp only [Option.some.injEq] at h
      rw [← h]
  rw [hw, recall_encrypted_data_reg]

theorem RecallUsername_eq (w : World) (c : ConfigName) (buf : List Byte) (cap : Nat) :
    RecallUsername w c buf cap =
      if (GetConfigRegistryValue w c AUTH_USER_DATA buf cap).1.2 = 0 then
        some (((GetConfigRegistryValue w c AUTH_USER_DATA buf cap).1.1, 0),
          w.note (Call.regQuery c AUTH_USER_DATA))
      else
        (storeWChar (GetConfigRegistryValue w c AUTH_USER_DATA buf cap).1.1
            ((cap + DWORD_MOD - 1) % DWORD_MOD) 0).bind (fun u2 =>
          some ((u2, (GetConfigRegistryValue w c AUTH_USER_DATA buf cap).1.2),
            w.note (Call.regQuery c AUTH_USER_DATA))) := by
  unfold RecallUsername
  have hw : (GetConfigRegistryValue w c AUTH_USER_DATA buf cap).2
      = w.note (Call.regQuery c AUTH_USER_DATA) := by
    unfold GetConfigRegistryValue
    cases w.reg c AUTH_USER_DATA with
    | none => rfl
    | some v => by_cases h : v.length ≤ cap <;> simp [h]
  generalize GetConfigRegistryValue w c AUTH_USER_DATA buf cap = g at hw
  obtain ⟨⟨u1, len⟩, w1⟩ := g
  simp only at hw
  subst hw
  by_cases h0 : len = 0
  · simp [h0]
  · simp [h0]

theorem RecallUsername_frame (w : World) (c : ConfigName) (buf : List Byte) (cap : Nat)
    (r : (List Byte × Nat) × World) (h : RecallUsername w c buf cap = some r) :
    r.2.reg = w.reg := by
  rw [RecallUsername_eq] at h
  have hw : r.2 = w.note (Call.regQuery c AUTH_USER_DATA) := by
    split_ifs at h
    · simp only [Option.some.injEq] at h
      rw [← h]
    · simp only [Option.bind_eq_some] at h
      obtain ⟨u2, -, h⟩ := h
      simp only [Option.some.injEq] at h
      rw [← h]
  rw [hw]
  rfl

theorem recalled_length (env : Collab) (reg : ConfigName → String → Option (List Byte))
    (c : ConfigName) (name : String) :
    (recalled env reg c name).2 = (recalled env reg c name).1.length := by
  unfold recalled
  cases reg c name with
  | none => rfl
  | some blob =>
    by_cases h : 0 < blob.length ∧ blob.length ≤ IN_SIZE
    · simp only [h, and_self, if_true]
      cases env.CryptUnprotectData blob (loadedEntropy reg c (ENTROPY_LEN + 1)) <;> rfl
    · simp only [h, if_false]
      rfl

theorem recalled_pos (env : Collab) (reg : ConfigName → String → Option (List Byte))
    (c : ConfigName) (name : String) (h : 0 < (recalled env reg c name).2) :
    ∃ blob, reg c name = some blob ∧ 0 < blob.length := by
  unfold recalled at h
  cases hv : reg c name with
  | none => simp [hv] at h
  | some blob =>
    refine ⟨blob, rfl, ?_⟩
    by_contra hb
    simp [hv, hb] at h

theorem recalled_absent (env : Collab) (reg : ConfigName → String → Option (List Byte))
    (c : ConfigName) (name : String) (h : reg c name = none ∨ reg c name = some []) :
    (recalled env reg c name).2 = 0 := by
  unfold recalled
  rcases h with h | h <;> simp [h]

/-- A wide-text recall into a buffer of at least `cap` bytes returns, unless `cap`
is 1 (where the terminator index `cap / 2 - 1` wraps around). -/
theorem recall_encrypted_defined (env : Collab) (w : World) (c : ConfigName) (buf : List Byte)
    (cap : Nat) (name : String) (hbuf : cap ≤ buf.length) (h1 : cap ≠ 1)
    (hdw : cap < DWORD_MOD) : (recall_encrypted env w c buf cap name).isSome = true := by
  rw [recall_encrypted_eq, memset_ok buf cap hbuf]
  simp only [Option.some_bind]
  split_ifs with h0 hle
  · rfl
  · rw [recalled_length] at hle h0 ⊢
    rw [memcpy_zeroed buf _ cap hle hbuf]
    simp only [Option.some_bind]
    rw [wide_index cap (by omega) hdw]
    have hblen := copied_length buf (recalled env w.reg c name).1 cap hle hbuf
    have hin : 2 * (cap / 2 - 1) + 1 < buf.length := by omega
    simp [storeWChar, hblen, hin]
  · rfl

/-- A byte-string recall into a buffer of at least `cap` bytes returns. -/
theorem recall_encrypted_1_defined (env : Collab) (w : World) (c : ConfigName)
    (buf : List Byte) (cap : Nat) (name : String) (hbuf : cap ≤ buf.length)
    (hdw : cap < DWORD_MOD) : (recall_encrypted_1 env w c buf cap name).isSome = true := by
  rw [recall_encrypted_1_eq, memset_ok buf cap hbuf]
  simp only [Option.some_bind]
  split_ifs with h0 hle
  · rfl
  · rw [recalled_length] at hle h0 ⊢
    rw [memcpy_zeroed buf _ cap hle hbuf]
    simp only [Option.some_bind]
    rw [byte_index cap (by omega) hdw]
    have hblen := copied_length buf (recalled env w.reg c name).1 cap hle hbuf
    have hin : cap - 1 < buf.length := by omega
    simp [storeByte, hblen, hin]
  · rfl

theorem RecallUsername_absent (w : World) (c : ConfigName) (buf : List Byte) (cap : Nat)
    (h : w.reg c AUTH_USER_DATA = none ∨ w.reg c AUTH_USER_DATA = some []) :
    ∃ w2, RecallUsername w c buf cap = some ((buf, 0), w2) := by
  refine ⟨w.note (Call.regQuery c AUTH_USER_DATA), ?_⟩
  rw [RecallUsername_eq]
  rcases h with h | h
  · rw [GetConfigRegistryValue_miss w c _ buf cap (by simp [h])]
    simp
  · rw [GetConfigRegistryValue_hit w c _ buf cap [] h (by simp)]
    simp [fill_nil]

/-- `RecallUsername` returns when the buffer has room for `cap` wide characters. -/
theorem RecallUsername_defined (w : World) (c : ConfigName) (buf : List Byte) (cap : Nat)
    (hbuf : 2 * cap ≤ buf.length) (hdw : cap < DWORD_MOD) :
    (RecallUsername w c buf cap).isSome = true := by
  rw [RecallUsername_eq]
  split_ifs with h0
  · rfl
  · have hlen : (GetConfigRegistryValue w c AUTH_USER_DATA buf cap).1.1.length = buf.length := by
      unfold GetConfigRegistryValue
      cases w.reg c AUTH_USER_DATA with
      | none => rfl
      | some v => by_cases h : v.length ≤ cap <;> simp [h, fill_length]
    have hpos : 0 < cap := by
      by_contra hc
      have hz : cap = 0 := by omega
      apply h0
      unfold GetConfigRegistryValue
      cases w.reg c AUTH_USER_DATA with
      | none => rfl
      | some v =>
        by_cases h : v.length ≤ cap
        · simp only [h, if_true]
          omega
        · simp [h]
    rw [byte_index cap hpos hdw]
    have hin : 2 * (cap - 1) + 1 < buf.length := by omega
    simp [storeWChar, hlen, hin]

/-- C4: recall and the probes are read-only. For every registry state,
configuration, buffer and capacity, a `RecallKeyPass`, `RecallAuthPass`,
`RecallTotpPass` or `RecallUsername` that returns, and every `IsKeyPassSaved`,
`IsAuthPassSaved`, `IsTotpPassSaved`, leaves every registry value as it was (so no
entropy value appears where there was none). The sealed recalls do return when the
buffer has the `capacity` bytes (for the wide-text ones, `capacity` other than 1),
and `RecallUsername` when the buffer has `2 * capacity` bytes. A recall of a kind
whose value is absent or empty returns 0. -/
theorem C4_recall_and_probe_read_only (env : Collab) (w : World) (c : ConfigName)
    (buf : List Byte) (capacity : Nat) :
    ((∀ r, RecallKeyPass env w c buf capacity = some r → r.2.reg = w.reg) ∧
      (∀ r, RecallAuthPass env w c buf capacity = some r → r.2.reg = w.reg) ∧
      (∀ r, RecallTotpPass env w c buf capacity = some r → r.2.reg = w.reg) ∧
      (∀ r, RecallUsername w c buf capacity = some r → r.2.reg = w.reg) ∧
      (IsKeyPassSaved w c).2.reg = w.reg ∧
      (IsAuthPassSaved w c).2.reg = w.reg ∧
      (IsTotpPassSaved w c).2.reg = w.reg) ∧
    ((capacity ≤ buf.length → capacity ≠ 1 → capacity < DWORD_MOD →
        (RecallKeyPass env w c buf capacity).isSome = true ∧
        (RecallAuthPass env w c buf capacity).isSome = true) ∧
      (capacity ≤ buf.length → capacity < DWORD_MOD →
        (RecallTotpPass env w c buf capacity).isSome = true) ∧
      (2 * capacity ≤ buf.length → capacity < DWORD_MOD →
        (RecallUsername w c buf capacity).isSome = true)) ∧
    ((w.reg c KEY_PASS_DATA = none ∨ w.reg c KEY_PASS_DATA = some [] →
        capacity ≤ buf.length →
        ∃ w2, RecallKeyPass env w c buf capacity
          = some ((List.replicate capacity 0 ++ buf.drop capacity, 0), w2)) ∧
      (w.reg c AUTH_PASS_DATA = none ∨ w.reg c AUTH_PASS_DATA = some [] →
        capacity ≤ buf.length →
        ∃ w2, RecallAuthPass env w c buf capacity
          = some ((List.replicate capacity 0 ++ buf.drop capacity, 0), w2)) ∧
      (w.reg c TOTP_PASS_DATA = none ∨ w.reg c TOTP_PASS_DATA = some [] →
        capacity ≤ buf.length →
        ∃ w2, RecallTotpPass env w c buf capacity
          = some ((List.replicate capacity 0 ++ buf.drop capacity, 0), w2)) ∧
      (w.reg c AUTH_USER_DATA = none ∨ w.reg c AUTH_USER_DATA = some [] →
        ∃ w2, RecallUsername w c buf capacity = some ((buf, 0), w2))) := by
  refine ⟨⟨?_, ?_, ?_, ?_, ?_, ?_, ?_⟩, ⟨?_, ?_, ?_⟩, ⟨?_, ?_, ?_, ?_⟩⟩
  · exact fun r h => recall_encrypted_frame env w c buf capacity KEY_PASS_DATA r h
  · exact fun r h => recall_encrypted_frame env w c buf capacity AUTH_PASS_DATA r h
  · exact fun r h => recall_encrypted_1_frame env w c buf capacity TOTP_PASS_DATA r h
  · exact fun r h => RecallUsername_frame w c buf capacity r h
  · exact IsKeyPassSaved_reg w c
  · exact IsAuthPassSaved_reg w c
  · exact IsTotpPassSaved_reg w c
  · exact fun hbuf h1 hdw =>
      ⟨recall_encrypted_defined env w c buf capacity KEY_PASS_DATA hbuf h1 hdw,
       recall_encrypted_defined env w c buf capacity AUTH_PASS_DATA hbuf h1 hdw⟩
  · exact fun hbuf hdw => recall_encrypted_1_defined env w c buf capacity TOTP_PASS_DATA hbuf hdw
  · exact fun hbuf hdw => RecallUsername_defined w c buf capacity hbuf hdw
  · intro h hbuf
    obtain ⟨w2, h2, _⟩ := recall_encrypted_none env w c buf capacity KEY_PASS_DATA
      (recalled_absent env w.reg c _ h) hbuf
    exact ⟨w2, h2⟩
  · intro h hbuf
    obtain ⟨w2, h2, _⟩ := recall_encrypted_none env w c buf capacity AUTH_PASS_DATA
      (recalled_absent env w.reg c _ h) hbuf
    exact ⟨w2, h2⟩
  · intro h hbuf
    obtain ⟨w2, h2, _⟩ := recall_encrypted_1_none env w c buf capacity TOTP_PASS_DATA
      (recalled_absent env w.reg c _ h) hbuf
    exact ⟨w2, h2⟩
  · exact fun h => RecallUsername_absent w c buf capacity h

/-- Witness of C4: recalls from the empty registry into a buffer of 4 bytes. -/
theorem C4_recall_and_probe_read_only_witness :
    ((RecallKeyPass toyEnv emptyWorld "vpn" [1, 1, 1, 1] 4).isSome = true ∧
      (RecallAuthPass toyEnv emptyWorld "vpn" [1, 1, 1, 1] 4).isSome = true) ∧
    (∃ w2, RecallKeyPass toyEnv emptyWorld "vpn" [1, 1, 1, 1] 4
      = some ((List.replicate 4 0 ++ ([1, 1, 1, 1] : List Byte).drop 4, 0), w2)) ∧
    (∃ w2, RecallUsername emptyWorld "vpn" [1, 1, 1, 1] 4 = some (([1, 1, 1, 1], 0), w2)) :=
  ⟨(C4_recall_and_probe_read_only toyEnv emptyWorld "vpn" [1, 1, 1, 1] 4).2.1.1
      (by decide) (by decide) (by decide),
   (C4_recall_and_probe_read_only toyEnv emptyWorld "vpn" [1, 1, 1, 1] 4).2.2.1
      (Or.inl rfl) (by decide),
   (C4_recall_and_probe_read_only toyEnv emptyWorld "vpn" [1, 1, 1, 1] 4).2.2.2.2.2
      (Or.inl rfl)⟩

/-! ## Capacity overflow -/

/-- C5: capacity overflow is treated as corruption. For each sealed kind, when the
stored blob, read and unsealed by the recall path, gives a plaintext longer than the
capacity, the recall (into a buffer that has the `capacity` bytes) returns 0, every
one of the `capacity` bytes is zero, the registry is as it was, and the matching
`IsKeyPassSaved`, `IsAuthPassSaved` or `IsTotpPassSaved` still returns true. -/
theorem C5_capacity_overflow (env : Collab) (w : World) (c : ConfigName) (buf : List Byte)
    (capacity : Nat) (hbuf : capacity ≤ buf.length) :
    (capacity < (recall_encrypted_data env w c KEY_PASS_DATA).1.2 →
      ∃ w2, RecallKeyPass env w c buf capacity
          = some ((List.replicate capacity 0 ++ buf.drop capacity, 0), w2) ∧
        w2.reg = w.reg ∧ (IsKeyPassSaved w2 c).1 = true) ∧
    (capacity < (recall_encrypted_data env w c AUTH_PASS_DATA).1.2 →
      ∃ w2, RecallAuthPass env w c buf capacity
          = some ((List.replicate capacity 0 ++ buf.drop capacity, 0), w2) ∧
        w2.reg = w.reg ∧ (IsAuthPassSaved w2 c).1 = true) ∧
    (capacity < (recall_encrypted_data env w c TOTP_PASS_DATA).1.2 →
      ∃ w2, RecallTotpPass env w c buf capacity
          = some ((List.replicate capacity 0 ++ buf.drop capacity, 0), w2) ∧
        w2.reg = w.reg ∧ (IsTotpPassSaved w2 c).1 = true) := by
  refine ⟨?_, ?_, ?_⟩
  · intro h
    rw [recall_encrypted_data_fst] at h
    obtain ⟨w2, h2, h3⟩ := recall_encrypted_long env w c buf capacity KEY_PASS_DATA h hbuf
    obtain ⟨blob, hb, hpos⟩ := recalled_pos env w.reg c KEY_PASS_DATA (by omega)
    refine ⟨w2, h2, h3, ?_⟩
    simp [IsKeyPassSaved, GetConfigRegistryValue_NULL_fst, h3, hb, hpos]
  · intro h
    rw [recall_encrypted_data_fst] at h
    obtain ⟨w2, h2, h3⟩ := recall_encrypted_long env w c buf capacity AUTH_PASS_DATA h hbuf
    obtain ⟨blob, hb, hpos⟩ := recalled_pos env w.reg c AUTH_PASS_DATA (by omega)
    refine ⟨w2, h2, h3, ?_⟩
    simp [IsAuthPassSaved, GetConfigRegistryValue_NULL_fst, h3, hb, hpos]
  · intro h
    rw [recall_encrypted_data_fst] at h
    obtain ⟨w2, h2, h3⟩ := recall_encrypted_1_long env w c buf capacity TOTP_PASS_DATA h hbuf
    obtain ⟨blob, hb, hpos⟩ := recalled_pos env w.reg c TOTP_PASS_DATA (by omega)
    refine ⟨w2, h2, h3, ?_⟩
    simp [IsTotpPassSaved, GetConfigRegistryValue_NULL_fst, h3, hb, hpos]

/-- Witness of C5: the six stored bytes do not fit a capacity of 4. -/
theorem C5_capacity_overflow_witness :
    (∃ w2, RecallKeyPass toyEnv overflowWorld "vpn" [1, 1, 1, 1] 4
          = some ((List.replicate 4 0 ++ ([1, 1, 1, 1] : List Byte).drop 4, 0), w2) ∧
        w2.reg = overflowWorld.reg ∧ (IsKeyPassSaved w2 "vpn").1 = true) ∧
    (∃ w2, RecallAuthPass toyEnv overflowWorld "vpn" [1, 1, 1, 1] 4
          = some ((List.replicate 4 0 ++ ([1, 1, 1, 1] : List Byte).drop 4, 0), w2) ∧
        w2.reg = overflowWorld.reg ∧ (IsAuthPassSaved w2 "vpn").1 = true) ∧
    (∃ w2, RecallTotpPass toyEnv overflowWorld "vpn" [1, 1, 1, 1] 4
          = some ((List.replicate 4 0 ++ ([1, 1, 1, 1] : List Byte).drop 4, 0), w2) ∧
        w2.reg = overflowWorld.reg ∧ (IsTotpPassSaved w2 "vpn").1 = true) :=
  ⟨(C5_capacity_overflow toyEnv overflowWorld "vpn" [1, 1, 1, 1] 4 (by decide)).1
      (by rw [recall_encrypted_data_fst]; decide),
   (C5_capacity_overflow toyEnv overflowWorld "vpn" [1, 1, 1, 1] 4 (by decide)).2.1
      (by rw [recall_encrypted_data_fst]; decide),
   (C5_capacity_overflow toyEnv overflowWorld "vpn" [1, 1, 1, 1] 4 (by decide)).2.2
      (by rw [recall_encrypted_data_fst]; decide)⟩

/-! ## Entropy stability -/

/-- Apart from the value it writes, a save leaves the registry as its `get_entropy`
call left it. -/
theorem save_encrypted_data_reg_other (env : Collab) (w : World) (c : ConfigName)
    (name : String) (data : List Byte) (len : Nat) (c2 : ConfigName) (n2 : String)
    (hne : ¬ (c2 = c ∧ n2 = name)) :
    (save_encrypted_data env w c name data len).2.reg c2 n2
      = (saveEntropy env w c).2.reg c2 n2 := by
  cases hb : env.CryptProtectData (data.take len) (cstr (saveEntropy env w c).1) with
  | none =>
    rw [(save_encrypted_data_unsealed env w c name data len (Or.inl hb)).2]
  | some blob =>
    by_cases hpos : 0 < blob.length
    · rw [(save_encrypted_data_sealed env w c name data len blob hb hpos).2]
      simp [hne]
    · have hnil : blob = [] := List.length_eq_zero.mp (by omega)
      rw [hnil] at hb
      rw [(save_encrypted_data_unsealed env w c name data len (Or.inr hb)).2]

theorem DeleteConfigRegistryValue_other (w : World) (c : ConfigName) (n n2 : String)
    (h : n2 ≠ n) : (DeleteConfigRegistryValue w c n).reg c n2 = w.reg c n2 := by
  rw [DeleteConfigRegistryValue_reg, if_neg (fun hh => h hh.2)]

/-- After its `get_entropy` call, a save logs the seal with the entropy string that
call returned. -/
theorem save_encrypted_data_log (env : Collab) (w : World) (c : ConfigName) (name : String)
    (data : List Byte) (len : Nat) :
    ∃ rest, (save_encrypted_data env w c name data len).2.log
      = (saveEntropy env w c).2.log
          ++ Call.protect (data.take len) (cstr (saveEntropy env w c).1) :: rest := by
  unfold save_encrypted_data saveEntropy
  generalize get_entropy env w c (stackBuf env (ENTROPY_LEN + 1)) (ENTROPY_LEN + 1) true = r
  obtain ⟨entropy, w1⟩ := r
  simp only
  cases hb : env.CryptProtectData (data.take len) (cstr entropy) with
  | none =>
    refine ⟨[], ?_⟩
    rw [crypt_protect_none env _ data len _ hb]
    simp
  | some blob =>
    rw [crypt_protect_some env _ data len _ blob hb]
    by_cases hpos : 0 < blob.length
    · refine ⟨[Call.regSet c name blob], ?_⟩
      by_cases hw : env.regWritable c name blob = true
      · simp [hpos, SetConfigRegistryValueBinary, hw]
      · simp [hpos, SetConfigRegistryValueBinary, hw]
    · refine ⟨[], ?_⟩
      simp [hpos]

/-- Without a stored entropy value, `get_entropy` with `generate` first reads the
registry and then asks the random source. -/
theorem get_entropy_generate_log (env : Collab) (w : World) (c : ConfigName) (e : List Byte)
    (sz : Nat) (habs : w.reg c ENTROPY_DATA = none) :
    ∃ rest, (get_entropy env w c e sz true).2.log
      = w.log ++ Call.regQuery c ENTROPY_DATA :: Call.random sz :: rest := by
  have h := GetConfigRegistryValue_miss w c ENTROPY_DATA e sz (by simp [habs])
  cases hr : env.random sz with
  | none =>
    rw [get_entropy_miss_norandom env w c e sz h hr]
    exact ⟨[], by simp⟩
  | some r =>
    cases hw : env.regWritable c ENTROPY_DATA ((freshEntropy e r sz).take sz) with
    | true =>
      rw [(get_entropy_miss_saved env w c e sz r h hr hw).2.2]
      exact ⟨[Call.regSet c ENTROPY_DATA ((freshEntropy e r sz).take sz)], by simp⟩
    | false =>
      rw [(get_entropy_miss_unsaved env w c e sz r h hr hw).2.2]
      exact ⟨[Call.regSet c ENTROPY_DATA ((freshEntropy e r sz).take sz)], by simp⟩

/-- Without a stored entropy value, a save first reads the registry and then asks
the random source. -/
theorem save_generate_log (env : Collab) (w : World) (c : ConfigName) (name : String)
    (data : List Byte) (len : Nat) (habs : w.reg c ENTROPY_DATA = none) :
    ∃ rest, (save_encrypted_data env w c name data len).2.log
      = w.log ++ Call.regQuery c ENTROPY_DATA :: Call.random (ENTROPY_LEN + 1) :: rest := by
  obtain ⟨r1, h1⟩ := save_encrypted_data_log env w c name data len
  obtain ⟨r2, h2⟩ := get_entropy_generate_log env w c (stackBuf env (ENTROPY_LEN + 1))
    (ENTROPY_LEN + 1) habs
  unfold saveEntropy at h1
  rw [h2] at h1
  exact ⟨r2 ++ Call.protect (data.take len)
    (cstr (get_entropy env w c (stackBuf env (ENTROPY_LEN + 1)) (ENTROPY_LEN + 1) true).1) :: r1,
    by rw [h1]; simp⟩

/-- Without a stored entropy value, with a working random source and a registry
that takes the new value, a save under another name stores the new value and
seals with it. -/
theorem save_generate_saved (env : Collab) (w : World) (c : ConfigName) (name : String)
    (data : List Byte) (len : Nat) (r : List Byte) (hne : name ≠ ENTROPY_DATA)
    (habs : w.reg c ENTROPY_DATA = none) (hr : env.random (ENTROPY_LEN + 1) = some r)
    (hw : env.regWritable c ENTROPY_DATA (newEntropy env r) = true) :
    (save_encrypted_data env w c name data len).2.reg c ENTROPY_DATA
      = some (newEntropy env r) ∧
    ∃ rest, (save_encrypted_data env w c name data len).2.log
      = w.log ++ Call.regQuery c ENTROPY_DATA :: Call.random (ENTROPY_LEN + 1)
          :: Call.regSet c ENTROPY_DATA (newEntropy env r)
          :: Call.protect (data.take len) (cstr (newEntropy env r)) :: rest := by
  have h := GetConfigRegistryValue_miss w c ENTROPY_DATA (stackBuf env (ENTROPY_LEN + 1))
    (ENTROPY_LEN + 1) (by simp [habs])
  have htake : (newEntropy env r).take (ENTROPY_LEN + 1) = newEntropy env r :=
    freshEntropy_take _ r _ (stackBuf_length _ _)
  have hw2 : env.regWritable c ENTROPY_DATA
      ((freshEntropy (stackBuf env (ENTROPY_LEN + 1)) r (ENTROPY_LEN + 1)).take
        (ENTROPY_LEN + 1)) = true := by
    have := htake
    unfold newEntropy at this
    rw [this]
    exact hw
  obtain ⟨g1, g2, g3⟩ := get_entropy_miss_saved env w c _ _ r h hr hw2
  have htake2 := htake
  unfold newEntropy at htake2
  rw [htake2] at g2 g3
  constructor
  · rw [save_encrypted_data_reg_other env w c name data len c ENTROPY_DATA
      (fun hh => hne hh.2.symm)]
    unfold saveEntropy
    rw [g2]
    simp [newEntropy]
  · obtain ⟨r1, h1⟩ := save_encrypted_data_log env w c name data len
    unfold saveEntropy at h1
    rw [g1, g3] at h1
    exact ⟨r1, by rw [h1]; simp [newEntropy]⟩

/-- Without a stored entropy value and with a working random source, a save offers
the new value to the registry right after generating it. -/
theorem save_generate_attempt (env : Collab) (w : World) (c : ConfigName) (name : String)
    (data : List Byte) (len : Nat) (r : List Byte) (habs : w.reg c ENTROPY_DATA = none)
    (hr : env.random (ENTROPY_LEN + 1) = some r) :
    ∃ rest, (save_encrypted_data env w c name data len).2.log
      = w.log ++ Call.regQuery c ENTROPY_DATA :: Call.random (ENTROPY_LEN + 1)
          :: Call.regSet c ENTROPY_DATA (newEntropy env r) :: rest := by
  have h := GetConfigRegistryValue_miss w c ENTROPY_DATA (stackBuf env (ENTROPY_LEN + 1))
    (ENTROPY_LEN + 1) (by simp [habs])
  have htake : (freshEntropy (stackBuf env (ENTROPY_LEN + 1)) r (ENTROPY_LEN + 1)).take
      (ENTROPY_LEN + 1) = newEntropy env r :=
    freshEntropy_take _ r _ (stackBuf_length _ _)
  obtain ⟨r1, h1⟩ := save_encrypted_data_log env w c name data len
  unfold saveEntropy at h1
  cases hw : env.regWritable c ENTROPY_DATA
      ((freshEntropy (stackBuf env (ENTROPY_LEN + 1)) r (ENTROPY_LEN + 1)).take
        (ENTROPY_LEN + 1)) with
  | true =>
    rw [(get_entropy_miss_saved env w c _ _ r h hr hw).2.2, htake] at h1
    exact ⟨Call.protect (data.take len)
      (cstr (get_entropy env w c (stackBuf env (ENTROPY_LEN + 1)) (ENTROPY_LEN + 1) true).1)
        :: r1, by rw [h1]; simp⟩
  | false =>
    rw [(get_entropy_miss_unsaved env w c _ _ r h hr hw).2.2, htake] at h1
    exact ⟨Call.protect (data.take len)
      (cstr (get_entropy env w c (stackBuf env (ENTROPY_LEN + 1)) (ENTROPY_LEN + 1) true).1)
        :: r1, by rw [h1]; simp⟩

theorem DeleteSavedPasswords_reg (w : World) (c : ConfigName) :
    (DeleteSavedPasswords w c).reg c KEY_PASS_DATA = none ∧
    (DeleteSavedPasswords w c).reg c AUTH_PASS_DATA = none ∧
    (DeleteSavedPasswords w c).reg c TOTP_PASS_DATA = none ∧
    (DeleteSavedPasswords w c).reg c ENTROPY_DATA = none := by
  unfold DeleteSavedPasswords
  simp only
  refine ⟨?_, ?_, ?_, ?_⟩
  · rw [DeleteConfigRegistryValue_other _ _ _ _ (by decide),
      DeleteConfigRegistryValue_other _ _ _ _ (by decide),
      DeleteConfigRegistryValue_other _ _ _ _ (by decide), DeleteConfigRegistryValue_reg]
    simp
  · rw [DeleteConfigRegistryValue_other _ _ _ _ (by decide),
      DeleteConfigRegistryValue_other _ _ _ _ (by decide), DeleteConfigRegistryValue_reg]
    simp
  · rw [DeleteConfigRegistryValue_other _ _ _ _ (by decide), DeleteConfigRegistryValue_reg]
    simp
  · rw [DeleteConfigRegistryValue_reg]
    simp

/-! ## Entropy degradation -/

theorem head_set_zero (l : List Byte) (h : 0 < l.length) : (l.set 0 0).head? = some 0 := by
  cases l with
  | nil => simp at h
  | cons x xs => rfl

theorem getLast_set_last (l : List Byte) (h : 0 < l.length) :
    (l.set (l.length - 1) 0).getLast? = some 0 := by
  rw [List.getLast?_eq_getElem?]
  simp only [List.length_set]
  rw [List.getElem?_set_self]
  simp
  omega

theorem freshEntropy_getLast (e r : List Byte) (sz : Nat) (he : e.length = sz) (hsz : 0 < sz) :
    (freshEntropy e r sz).getLast? = some 0 := by
  unfold freshEntropy
  have hl : (fill e (r.take sz)).length = sz := by rw [fill_length, he]
  have := getLast_set_last (fill e (r.take sz)) (by omega)
  rw [hl] at this
  exact this

/-- C9: entropy degradation. For every registry state without an entropy value for
the configuration and every buffer `e` of `sz` bytes (`sz` at least 1):
`get_entropy` without `generate` returns the empty string (first byte nul) and
leaves the registry as it was; with `generate` it returns the empty string and
leaves the registry as it was when the random source fails or the registry refuses
the new value; a non-empty string is returned only with `generate`, and then the
returned buffer (`sz` bytes, the last one nul) is the value stored under the entropy
name; and the string returned is always the one a later read-only `get_entropy`
loads from the registry left behind. -/
theorem C9_entropy_degradation (env : Collab) (w : World) (c : ConfigName) (e : List Byte)
    (sz : Nat) (he : e.length = sz) (hsz : 0 < sz) (habs : w.reg c ENTROPY_DATA = none) :
    ((get_entropy env w c e sz false).1.head? = some 0 ∧
      cstr (get_entropy env w c e sz false).1 = [] ∧
      (get_entropy env w c e sz false).2.reg = w.reg) ∧
    (env.random sz = none →
      (get_entropy env w c e sz true).1.head? = some 0 ∧
      cstr (get_entropy env w c e sz true).1 = [] ∧
      (get_entropy env w c e sz true).2.reg = w.reg) ∧
    (∀ r, env.random sz = some r →
      env.regWritable c ENTROPY_DATA (freshEntropy e r sz) = false →
      (get_entropy env w c e sz true).1.head? = some 0 ∧
      cstr (get_entropy env w c e sz true).1 = [] ∧
      (get_entropy env w c e sz true).2.reg = w.reg) ∧
    (∀ g, cstr (get_entropy env w c e sz g).1 ≠ [] →
      g = true ∧
      (get_entropy env w c e sz g).1.length = sz ∧
      (get_entropy env w c e sz g).1.getLast? = some 0 ∧
      (get_entropy env w c e sz g).2.reg c ENTROPY_DATA = some (get_entropy env w c e sz g).1) ∧
    (∀ g e2, e2.length = sz →
      cstr (get_entropy env (get_entropy env w c e sz g).2 c e2 sz false).1
        = cstr (get_entropy env w c e sz g).1) := by
  have h := GetConfigRegistryValue_miss w c ENTROPY_DATA e sz (by simp [habs])
  have hfalse := get_entropy_miss_false env w c e sz h
  refine ⟨?_, ?_, ?_, ?_, ?_⟩
  · rw [hfalse]
    exact ⟨head_set_zero e (by omega), cstr_set_zero e, rfl⟩
  · intro hr
    rw [get_entropy_miss_norandom env w c e sz h hr]
    exact ⟨head_set_zero e (by omega), cstr_set_zero e, rfl⟩
  · intro r hr hw
    rw [← freshEntropy_take e r sz he] at hw
    obtain ⟨g1, g2, -⟩ := get_entropy_miss_unsaved env w c e sz r h hr hw
    rw [g1, g2]
    exact ⟨head_set_zero _ (by rw [freshEntropy_length]; omega), cstr_set_zero _, rfl⟩
  · intro g hne
    cases g with
    | false =>
      rw [hfalse] at hne
      exact absurd (cstr_set_zero e) hne
    | true =>
      refine ⟨rfl, ?_⟩
      cases hr : env.random sz with
      | none =>
        rw [get_entropy_miss_norandom env w c e sz h hr] at hne
        exact absurd (cstr_set_zero e) hne
      | some r =>
        cases hw : env.regWritable c ENTROPY_DATA ((freshEntropy e r sz).take sz) with
        | false =>
          rw [(get_entropy_miss_unsaved env w c e sz r h hr hw).1] at hne
          exact absurd (cstr_set_zero _) hne
        | true =>
          obtain ⟨g1, g2, -⟩ := get_entropy_miss_saved env w c e sz r h hr hw
          rw [g1, g2, freshEntropy_take e r sz he]
          exact ⟨by rw [freshEntropy_length, he], freshEntropy_getLast e r sz he hsz, by simp⟩
  · intro g e2 he2
    rw [get_entropy_false_cstr env _ c e2 sz he2, get_entropy_agree env w c e sz g he]

/-- Witness of C9: the empty registry and a buffer of 17 bytes. -/
theorem C9_entropy_degradation_witness :
    (get_entropy toyEnv emptyWorld "vpn" (List.replicate 17 170) 17 false).1.head? = some 0 ∧
    cstr (get_entropy toyEnv emptyWorld "vpn" (List.replicate 17 170) 17 false).1 = [] ∧
    (get_entropy toyEnv emptyWorld "vpn" (List.replicate 17 170) 17 false).2.reg
      = emptyWorld.reg :=
  (C9_entropy_degradation toyEnv emptyWorld "vpn" (List.replicate 17 170) 17 (by decide)
    (by decide) rfl).1

/-- C7: bulk delete. For every registry state and configuration, after
`DeleteSavedPasswords` the three probes return false and the entropy value is
absent, so the next `SaveKeyPass`, `SaveAuthPass` or `SaveTotpPass` reads the
registry and then asks the random source for `ENTROPY_LEN + 1` bytes; when the
random source answers, the save offers the new value to the registry next; and
when the registry takes it, that value is stored under the entropy name and is the
one the save seals with. -/
theorem C7_bulk_delete (env : Collab) (w : World) (c : ConfigName) :
    ((IsAuthPassSaved (DeleteSavedPasswords w c) c).1 = false ∧
      (IsKeyPassSaved (DeleteSavedPasswords w c) c).1 = false ∧
      (IsTotpPassSaved (DeleteSavedPasswords w c) c).1 = false) ∧
    (DeleteSavedPasswords w c).reg c ENTROPY_DATA = none ∧
    ((∀ p, ∃ rest, (SaveKeyPass env (DeleteSavedPasswords w c) c p).2.log
        = (DeleteSavedPasswords w c).log
            ++ Call.regQuery c ENTROPY_DATA :: Call.random (ENTROPY_LEN + 1) :: rest) ∧
      (∀ p, ∃ rest, (SaveAuthPass env (DeleteSavedPasswords w c) c p).2.log
        = (DeleteSavedPasswords w c).log
            ++ Call.regQuery c ENTROPY_DATA :: Call.random (ENTROPY_LEN + 1) :: rest) ∧
      (∀ p, ∃ rest, (SaveTotpPass env (DeleteSavedPasswords w c) c p).2.log
        = (DeleteSavedPasswords w c).log
            ++ Call.regQuery c ENTROPY_DATA :: Call.random (ENTROPY_LEN + 1) :: rest)) ∧
    (∀ r, env.random (ENTROPY_LEN + 1) = some r →
      (∀ p, ∃ rest, (SaveKeyPass env (DeleteSavedPasswords w c) c p).2.log
        = (DeleteSavedPasswords w c).log
            ++ Call.regQuery c ENTROPY_DATA :: Call.random (ENTROPY_LEN + 1)
            :: Call.regSet c ENTROPY_DATA (newEntropy env r) :: rest) ∧
      (∀ p, ∃ rest, (SaveAuthPass env (DeleteSavedPasswords w c) c p).2.log
        = (DeleteSavedPasswords w c).log
            ++ Call.regQuery c ENTROPY_DATA :: Call.random (ENTROPY_LEN + 1)
            :: Call.regSet c ENTROPY_DATA (newEntropy env r) :: rest) ∧
      (∀ p, ∃ rest, (SaveTotpPass env (DeleteSavedPasswords w c) c p).2.log
        = (DeleteSavedPasswords w c).log
            ++ Call.regQuery c ENTROPY_DATA :: Call.random (ENTROPY_LEN + 1)
            :: Call.regSet c ENTROPY_DATA (newEntropy env r) :: rest)) ∧
    (∀ r, env.random (ENTROPY_LEN + 1) = some r →
      env.regWritable c ENTROPY_DATA (newEntropy env r) = true →
      (∀ p, (SaveKeyPass env (DeleteSavedPasswords w c) c p).2.reg c ENTROPY_DATA
          = some (newEntropy env r) ∧
        ∃ d rest, (SaveKeyPass env (DeleteSavedPasswords w c) c p).2.log
          = (DeleteSavedPasswords w c).log
              ++ Call.regQuery c ENTROPY_DATA :: Call.random (ENTROPY_LEN + 1)
              :: Call.regSet c ENTROPY_DATA (newEntropy env r)
              :: Call.protect d (cstr (newEntropy env r)) :: rest) ∧
      (∀ p, (SaveAuthPass env (DeleteSavedPasswords w c) c p).2.reg c ENTROPY_DATA
          = some (newEntropy env r) ∧
        ∃ d rest, (SaveAuthPass env (DeleteSavedPasswords w c) c p).2.log
          = (DeleteSavedPasswords w c).log
              ++ Call.regQuery c ENTROPY_DATA :: Call.random (ENTROPY_LEN + 1)
              :: Call.regSet c ENTROPY_DATA (newEntropy env r)
              :: Call.protect d (cstr (newEntropy env r)) :: rest) ∧
      (∀ p, (SaveTotpPass env (DeleteSavedPasswords w c) c p).2.reg c ENTROPY_DATA
          = some (newEntropy env r) ∧
        ∃ d rest, (SaveTotpPass env (DeleteSavedPasswords w c) c p).2.log
          = (DeleteSavedPasswords w c).log
              ++ Call.regQuery c ENTROPY_DATA :: Call.random (ENTROPY_LEN + 1)
              :: Call.regSet c ENTROPY_DATA (newEntropy env r)
              :: Call.protect d (cstr (newEntropy env r)) :: rest)) := by
  obtain ⟨hk, ha, ht, he⟩ := DeleteSavedPasswords_reg w c
  refine ⟨⟨?_, ?_, ?_⟩, he, ⟨?_, ?_, ?_⟩, ?_, ?_⟩
  · simp [IsAuthPassSaved, GetConfigRegistryValue_NULL_fst, ha]
  · simp [IsKeyPassSaved, GetConfigRegistryValue_NULL_fst, hk]
  · simp [IsTotpPassSaved, GetConfigRegistryValue_NULL_fst, ht]
  · exact fun p => save_generate_log env _ c KEY_PASS_DATA _ _ he
  · exact fun p => save_generate_log env _ c AUTH_PASS_DATA _ _ he
  · exact fun p => save_generate_log env _ c TOTP_PASS_DATA _ _ he
  · intro r hr
    exact ⟨fun p => save_generate_attempt env _ c KEY_PASS_DATA _ _ r he hr,
      fun p => save_generate_attempt env _ c AUTH_PASS_DATA _ _ r he hr,
      fun p => save_generate_attempt env _ c TOTP_PASS_DATA _ _ r he hr⟩
  · intro r hr hw
    refine ⟨?_, ?_, ?_⟩
    · intro p
      obtain ⟨h1, rest, h2⟩ := save_generate_saved env _ c KEY_PASS_DATA (wbytes p)
        ((wcslen p + 1) * sizeof_WCHAR % DWORD_MOD) r (by decide) he hr hw
      exact ⟨h1, _, rest, h2⟩
    · intro p
      obtain ⟨h1, rest, h2⟩ := save_generate_saved env _ c AUTH_PASS_DATA (wbytes p)
        ((wcslen p + 1) * sizeof_WCHAR % DWORD_MOD) r (by decide) he hr hw
      exact ⟨h1, _, rest, h2⟩
    · intro p
      obtain ⟨h1, rest, h2⟩ := save_generate_saved env _ c TOTP_PASS_DATA p
        (strlen p % DWORD_MOD) r (by decide) he hr hw
      exact ⟨h1, _, rest, h2⟩

/-- Witness of C7: after a save and a bulk delete, the next save stores a newly
generated entropy value. -/
theorem C7_bulk_delete_witness :
    (IsKeyPassSaved (DeleteSavedPasswords (SaveKeyPass toyEnv emptyWorld "vpn" [97, 0]).2 "vpn")
        "vpn").1 = false ∧
    (SaveAuthPass toyEnv (DeleteSavedPasswords (SaveKeyPass toyEnv emptyWorld "vpn" [97, 0]).2
        "vpn") "vpn" [98, 0]).2.reg "vpn" ENTROPY_DATA
      = some (newEntropy toyEnv (List.replicate 17 65)) :=
  ⟨(C7_bulk_delete toyEnv (SaveKeyPass toyEnv emptyWorld "vpn" [97, 0]).2 "vpn").1.2.1,
   (((C7_bulk_delete toyEnv (SaveKeyPass toyEnv emptyWorld "vpn" [97, 0]).2 "vpn").2.2.2.2
      (List.replicate 17 65) rfl rfl).2.1 [98, 0]).1⟩

/-! ## The username -/

/-- C8 (the code at the failing input): the username `ab` fits a buffer of 3 wide
characters, and `SaveUsername` stores its 6 bytes, but `RecallUsername` with
capacity 3 offers 3 bytes to the registry read, gets length 0, returns 0 and leaves
the 6 bytes of the buffer as they were. The two calls make one registry write and
one registry read, and no call to the protection primitive (which here always
fails). -/
theorem C8_username_not_recalled :
    wcslen [97, 98, 0] + 1 ≤ 3 ∧
    (SaveUsername failEnv emptyWorld "vpn" [97, 98, 0]).1 = 1 ∧
    (SaveUsername failEnv emptyWorld "vpn" [97, 98, 0]).2.reg "vpn" AUTH_USER_DATA
      = some [97, 0, 98, 0, 0, 0] ∧
    Option.map Prod.fst
      (RecallUsername (SaveUsername failEnv emptyWorld "vpn" [97, 98, 0]).2 "vpn"
        [1, 1, 1, 1, 1, 1] 3)
      = some ([1, 1, 1, 1, 1, 1], 0) ∧
    Option.map (fun r => r.2.log)
      (RecallUsername (SaveUsername failEnv emptyWorld "vpn" [97, 98, 0]).2 "vpn"
        [1, 1, 1, 1, 1, 1] 3)
      = some [Call.regSet "vpn" AUTH_USER_DATA [97, 0, 98, 0, 0, 0],
          Call.regQuery "vpn" AUTH_USER_DATA] := by
  decide

/-- C10 (the code at the failing input): with the username `a` stored (4 bytes) and
capacity 4, `RecallUsername` puts the terminator at the wide index 3, the bytes 6
and 7: outside a buffer of 4 bytes (no result), and beyond the 4 bytes offered to
the registry read in a buffer of 8 bytes; `RecallKeyPass` with capacity 4 puts it
at the wide index 1 and leaves the bytes 4 to 7 alone. -/
theorem C10_username_terminator_beyond_capacity :
    RecallUsername (SaveUsername toyEnv emptyWorld "vpn" [97, 0]).2 "vpn" [1, 1, 1, 1] 4
      = none ∧
    Option.map Prod.fst
      (RecallUsername (SaveUsername toyEnv emptyWorld "vpn" [97, 0]).2 "vpn"
        [1, 1, 1, 1, 1, 1, 1, 1] 4)
      = some ([97, 0, 0, 0, 1, 1, 0, 0], 4) ∧
    Option.map Prod.fst
      (RecallKeyPass toyEnv (SaveKeyPass toyEnv emptyWorld "vpn" [97, 0]).2 "vpn"
        [1, 1, 1, 1, 1, 1, 1, 1] 4)
      = some ([97, 0, 0, 0, 1, 1, 1, 1], 4) := by
  refine ⟨Option.eq_none_of_isNone (by decide), by decide, ?_⟩
  obtain ⟨-, w2, h⟩ := text_round_trip toyEnv emptyWorld "vpn" KEY_PASS_DATA [97, 0]
    [1, 1, 1, 1, 1, 1, 1, 1] 4 (by decide) (by decide) (by decide) (by decide) (by decide)
    (fun _ => rfl) (fun e he => toySeal_round_trip _ e (by decide) he)
  unfold RecallKeyPass SaveKeyPass
  rw [h]
  simp only [Option.map_some']
  decide

end SavePass
